import Mathlib

/-!
Verification of the gamgui repository against its natural-language
specification.  The repository contains two evolving server variants with
the same roles:

* `backend/` — Socket.IO gateway, direct pod exec, audit to Cloud Logging;
* `gamgui-server/` — REST API with per-session sidecar pods;

plus the sidecar itself (`gamgui-session` / `gamgui-session-manager`).

Each Python function relevant to a claim is shallowly embedded as an
executable Lean definition.  External collaborators (the Kubernetes API,
the Firestore repositories, the Cloud Logging sink) are modelled as
explicit inputs (the observed behaviour of each external call) and as
explicit outputs (the calls issued and the records persisted), so that
properties such as "no cluster call is made" or "the record is not
deleted" are directly statable.
-/

namespace Py

/-- Python `str.isspace` / whitespace stripped by `str.strip()` and matched
by the regex class `\s`, restricted to the code points that can actually
occur here (ASCII plus the Latin-1 and Unicode space separators). -/
def isSpace (c : Char) : Bool :=
  c.toNat = 0x20 || c.toNat = 0x09 || c.toNat = 0x0a || c.toNat = 0x0d ||
  c.toNat = 0x0b || c.toNat = 0x0c ||
  (0x1c ≤ c.toNat && c.toNat ≤ 0x1f) ||
  c.toNat = 0x85 || c.toNat = 0xa0 || c.toNat = 0x1680 ||
  (0x2000 ≤ c.toNat && c.toNat ≤ 0x200a) ||
  c.toNat = 0x2028 || c.toNat = 0x2029 || c.toNat = 0x202f ||
  c.toNat = 0x205f || c.toNat = 0x3000

/-- Python `str.strip()` on a character list: drop leading and trailing
whitespace. -/
def stripList (cs : List Char) : List Char :=
  ((cs.dropWhile isSpace).reverse.dropWhile isSpace).reverse

/-- Python `str.strip()`. -/
def strip (s : String) : String :=
  ⟨stripList s.data⟩

/-- Python `str.isprintable` for a single character.  Exact on the Basic
Latin and Latin-1 blocks (controls, DEL, C1 controls, NBSP and soft hyphen
are not printable); code points above Latin-1 are treated as printable
except the Unicode line, paragraph and space separators.  Every theorem
below that quantifies over strings restricts itself to ASCII, where this
model is exact. -/
def isPrintable (c : Char) : Bool :=
  if c.toNat < 0x20 then false
  else if c.toNat = 0x7f then false
  else if 0x80 ≤ c.toNat && c.toNat ≤ 0xa0 then false
  else if c.toNat = 0xad then false
  else if c.toNat = 0x2028 || c.toNat = 0x2029 then false
  else if isSpace c && c ≠ ' ' then false
  else true

/-- Python `str.isprintable` on a whole (non-empty) string: every
character printable.  (Python returns `True` on the empty string; the one
call site guards against the empty string first.) -/
def isPrintableStr (s : String) : Bool :=
  s.data.all isPrintable

/-- `c` is an ASCII printable character (`0x20 ≤ c ≤ 0x7e`). -/
def isAsciiPrintable (c : Char) : Bool :=
  0x20 ≤ c.toNat && c.toNat ≤ 0x7e

end Py

/-! ## Kubernetes API call outcomes

Both variants call the official Kubernetes Python client; a call either
succeeds, raises `ApiException` with an HTTP status code, or raises some
other exception.  This type is the observed outcome of one such call. -/

/-- Outcome of one underlying Kubernetes API call. -/
inductive K8sApiOutcome
  | success
  | apiErr (status : Nat)
  | otherExc
deriving DecidableEq, Repr

/-- `true` when the outcome is an exception escaping the client call. -/
def K8sApiOutcome.raises : K8sApiOutcome → Bool
  | .success => false
  | .apiErr _ => false
  | .otherExc => true

/-- Python-level exception surfacing from one of the embedded functions.
`reError` is `re.error` from the `re` module; `k8sError` is the plain
`Exception` the gamgui-server Kubernetes service raises on non-404 API
errors; `apiException` is the application-level `APIException` carrying a
stable error code. -/
inductive PyErr
  | reError
  | k8sError
  | apiException (code : String)
deriving DecidableEq, Repr

deriving instance DecidableEq for Except

/-! ## C8 — idempotent pod deletion, both variants

`backend/services/kubernetes_service.py`, `delete_session_pod`
(lines 205-221): returns `True` on success, `True` on a 404
`ApiException` ("already deleted"), and `False` — without raising — on any
other `ApiException` or unexpected exception.

`gamgui-server/services/kubernetes_service.py`, `delete_session_pod`
(lines 211-231): returns `True` on success and on 404, and re-raises a
plain `Exception` for any other `ApiException` or unexpected exception. -/

namespace Backend

/-- Embedding of `backend` `KubernetesService.delete_session_pod`: the
result as seen by the caller.  Every exception is caught inside the
function, so the call always returns a boolean. -/
def deleteSessionPod (api : K8sApiOutcome) : Except PyErr Bool :=
  match api with
  | .success => .ok true
  | .apiErr n => if n = 404 then .ok true else .ok false
  | .otherExc => .ok false

end Backend

namespace GSrv

/-- Embedding of `gamgui-server` `KubernetesService.delete_session_pod`:
`True` on success or 404, otherwise the exception propagates. -/
def deleteSessionPod (api : K8sApiOutcome) : Except PyErr Bool :=
  match api with
  | .success => .ok true
  | .apiErr n => if n = 404 then .ok true else .error .k8sError
  | .otherExc => .error .k8sError

/-- Embedding of `gamgui-server` `KubernetesService.delete_session_service`
(lines 427-450): same shape as pod deletion. -/
def deleteSessionService (api : K8sApiOutcome) : Except PyErr Bool :=
  match api with
  | .success => .ok true
  | .apiErr n => if n = 404 then .ok true else .error .k8sError
  | .otherExc => .error .k8sError

/-- Embedding of `gamgui-server` `KubernetesService.delete_session_ingress`
(lines 452-474): same shape as pod deletion. -/
def deleteSessionIngress (api : K8sApiOutcome) : Except PyErr Bool :=
  match api with
  | .success => .ok true
  | .apiErr n => if n = 404 then .ok true else .error .k8sError
  | .otherExc => .error .k8sError

end GSrv

/-! ## C10 — sidecar cleanup cancels all commands process-wide

`gamgui-session-manager/services/gam_service.py`, `cancel_all_commands`
(lines 164-177), and `gamgui-session/controllers/websocket_controller.py`,
`_cleanup_connection` (lines 194-203). -/

namespace Sidecar

/-- One tracked `subprocess.Popen` in `GamService.running_processes`.
`startedBy` records which WebSocket connection started the command; the
source keeps no such attribution (the registry is keyed by command id
only), so the field exists purely to let theorems talk about ownership.
`termFails` says whether calling `process.terminate()` raises. -/
structure Proc where
  startedBy : String
  termFails : Bool
deriving DecidableEq, Repr

/-- State of one `GamService` instance (one per sidecar process). -/
structure GamState where
  runningProcesses : List (String × Proc)
deriving DecidableEq, Repr

/-- Result of `GamService.cancel_all_commands`: the new service state, the
returned count, and the list of command ids on which `terminate()` was
invoked (whether or not it raised, the attempt is made and the entry is
cleared). -/
structure CancelAllResult where
  gam : GamState
  count : Nat
  terminateAttempts : List String
deriving DecidableEq, Repr

/-- Embedding of `GamService.cancel_all_commands`: iterate over every
entry of `running_processes`, call `terminate()` on each (counting the
ones that do not raise), then clear the whole registry. -/
def cancelAllCommands (g : GamState) : CancelAllResult :=
  { gam := { runningProcesses := [] }
    count := (g.runningProcesses.filter (fun p => !p.2.termFails)).length
    terminateAttempts := g.runningProcesses.map (fun p => p.1) }

/-- State of one `WebSocketController` plus its `GamService`. -/
structure ControllerState where
  activeConnections : List String
  gam : GamState
deriving DecidableEq, Repr

/-- Result of `WebSocketController._cleanup_connection`. -/
structure CleanupResult where
  ctrl : ControllerState
  terminateAttempts : List String
deriving DecidableEq, Repr

/-- Embedding of `WebSocketController._cleanup_connection`: remove the
one disconnecting connection from `active_connections`, then call
`GamService.cancel_all_commands` — which is not scoped to the
connection. -/
def cleanupConnection (st : ControllerState) (connectionId : String) : CleanupResult :=
  let conns := st.activeConnections.filter (fun c => c ≠ connectionId)
  let r := cancelAllCommands st.gam
  { ctrl := { activeConnections := conns, gam := r.gam }
    terminateAttempts := r.terminateAttempts }

end Sidecar

/-! ## C2 — command redaction in the audit sink

`backend/services/audit_service.py`, `AuditService._filter_sensitive_data`
(lines 123-146) and `AuditService.log_command` (lines 25-49).

The source applies, in order, five `re.sub(pattern, replacement, ...,
flags=re.IGNORECASE)` calls with the fixed replacement template
`\1=***REDACTED***`.  CPython compiles and validates the replacement
template against the compiled pattern before scanning the subject string
(`sre_parse.parse_template`, reached from `Pattern.sub` regardless of
whether the string contains a match): a template reference `\1` when the
pattern has no capturing group raises
`re.error("invalid group reference")` for every subject string.  The
third, fourth and fifth patterns — `--password[\s=]+\S+`, `-p[\s=]+\S+`
and `export\s+\w*(?:PASSWORD|TOKEN|KEY|SECRET)\w*[\s=]+\S+` — contain no
capturing group (`(?:...)` is non-capturing), so the third `re.sub` call
raises on every input. -/

namespace Audit

/-- Case-insensitive literal match of `kw` (given in lower case) against a
prefix of `cs`; returns the matched original characters and the rest.
Models one alternative of a group such as `(password|passwd|pwd)` under
`re.IGNORECASE`. -/
def matchKw : List Char → List Char → Option (List Char × List Char)
  | [], rest => some ([], rest)
  | _ :: _, [] => none
  | k :: ks, c :: cs =>
    if c.toLower = k then
      match matchKw ks cs with
      | some (m, rest) => some (c :: m, rest)
      | none => none
    else none

/-- Ordered alternation over the keywords of a group, as Python tries the
alternatives left to right at each position.  For the keyword sets of the
source patterns the alternatives are pairwise incompatible at any single
position ("password"/"passwd" diverge at index 5, "passwd"/"pwd" at index
1, "token"/"key"/"secret" at index 0), so taking the first successful
alternative coincides with the backtracking engine. -/
def matchAlt (alts : List (List Char)) (cs : List Char) :
    Option (List Char × List Char) :=
  match alts with
  | [] => none
  | a :: rest =>
    match matchKw a cs with
    | some r => some r
    | none => matchAlt rest cs

/-- Character class `[\s=]` of the sensitive patterns. -/
def isWsEq (c : Char) : Bool := Py.isSpace c || c = '='

/-- Backtracking for the regex tail `[\s=]+\S+` starting at `cs`: the
greedy `[\s=]+` prefers the longest prefix of the `[\s=]` run, backing off
until `\S+` can match at least one character; `\S+` then consumes the
maximal non-whitespace run.  The argument is the candidate length of the
`[\s=]+` part (tried from the full run length downward). -/
def sepValueSplit (cs : List Char) : Nat → Option Nat
  | 0 => none
  | k + 1 =>
    match cs.drop (k + 1) with
    | [] => sepValueSplit cs k
    | c :: rest =>
      if Py.isSpace c then sepValueSplit cs k
      else some ((k + 1) + 1 + (rest.takeWhile (fun d => !Py.isSpace d)).length)

/-- Length of a match of `[\s=]+\S+` at the start of `cs`, if any. -/
def matchSepValue (cs : List Char) : Option Nat :=
  let runLen := (cs.takeWhile isWsEq).length
  if runLen = 0 then none else sepValueSplit cs runLen

/-- The fixed redaction text substituted for the value (the template is
`\1=***REDACTED***`, so the matched keyword is kept and everything after
it becomes this marker). -/
def redactionMarker : List Char := "=***REDACTED***".data

/-- One full left-to-right substitution pass of `re.sub` for a pattern of
the shape `(kw1|kw2|...)[\s=]+\S+` with replacement `\1=***REDACTED***`:
each non-overlapping match is replaced, other characters are copied.  The
first argument is fuel bounding the recursion by the input length. -/
def scanSubKw (alts : List (List Char)) : Nat → List Char → List Char
  | 0, cs => cs
  | _ + 1, [] => []
  | fuel + 1, c :: rest =>
    match matchAlt alts (c :: rest) with
    | some (kwText, afterKw) =>
      match matchSepValue afterKw with
      | some n => kwText ++ redactionMarker ++ scanSubKw alts fuel (afterKw.drop n)
      | none => c :: scanSubKw alts fuel rest
    | none => c :: scanSubKw alts fuel rest

/-- One compiled pattern of `_filter_sensitive_data`: its number of
capturing groups, and its substitution pass.  For the group-less patterns
the substitution pass is unreachable in CPython (template validation
precedes any scanning), so it is the identity there. -/
structure RePattern where
  groups : Nat
  substitute : List Char → List Char

/-- Highest group reference in the fixed template `\1=***REDACTED***`. -/
def templateMaxGroupRef : Nat := 1

/-- Model of `re.sub(pattern, r"\1=***REDACTED***", s, flags=re.IGNORECASE)`:
CPython first validates the template against the pattern and raises
`re.error` when it references a group the pattern does not have, before
looking at the subject string; only then does the substitution pass run. -/
def reSub (p : RePattern) (cs : List Char) : Except PyErr (List Char) :=
  if p.groups < templateMaxGroupRef then .error .reError
  else .ok (p.substitute cs)

/-- Pattern 1: `(password|passwd|pwd)[\s=]+\S+` — one capturing group. -/
def patPassword : RePattern :=
  { groups := 1
    substitute := fun cs =>
      scanSubKw ["password".data, "passwd".data, "pwd".data] cs.length cs }

/-- Pattern 2: `(token|key|secret)[\s=]+\S+` — one capturing group. -/
def patToken : RePattern :=
  { groups := 1
    substitute := fun cs =>
      scanSubKw ["token".data, "key".data, "secret".data] cs.length cs }

/-- Pattern 3: `--password[\s=]+\S+` — no capturing group; its
substitution pass is unreachable. -/
def patDashPassword : RePattern := { groups := 0, substitute := id }

/-- Pattern 4: `-p[\s=]+\S+` — no capturing group; unreachable pass. -/
def patDashP : RePattern := { groups := 0, substitute := id }

/-- Pattern 5: `export\s+\w*(?:PASSWORD|TOKEN|KEY|SECRET)\w*[\s=]+\S+` —
`(?:...)` is non-capturing, so no capturing group; unreachable pass. -/
def patExport : RePattern := { groups := 0, substitute := id }

/-- Embedding of `AuditService._filter_sensitive_data`: apply the five
`re.sub` calls in order; the first raising call aborts the function with
`re.error`. -/
def filterSensitiveData (command : String) : Except PyErr String := do
  let r1 ← reSub patPassword command.data
  let r2 ← reSub patToken r1
  let r3 ← reSub patDashPassword r2
  let r4 ← reSub patDashP r3
  let r5 ← reSub patExport r4
  return ⟨r5⟩

/-- One structured entry written to the Cloud Logging audit log. -/
structure AuditEntry where
  kind : String
  userId : String
  sessionId : String
  payload : String
deriving DecidableEq, Repr

/-- Embedding of `AuditService.log_command`: filter the command and write
one structured entry; the whole body is wrapped in `try/except Exception`
that only logs the failure, so when the filter raises no entry is written.
Returns the list of entries written by the call. -/
def logCommand (userId sessionId command : String) : List AuditEntry :=
  match filterSensitiveData command with
  | .ok filtered => [⟨"command", userId, sessionId, filtered⟩]
  | .error _ => []

end Audit
/-! ## C6 — command-boundary detection in the Socket.IO gateway

`backend/controllers/socketio_controller.py`,
`SocketIOController.handle_input` (lines 134-181).  One call handles one
`terminal_input` event whose payload is `data.get("data", "")`. -/

namespace Gateway

/-- Effect of one `handle_input` call on a connection that is bound to a
session: the new per-connection command buffer, the commands passed to
`AuditService.log_command` by this call, and the data written to the exec
stream stdin. -/
structure InputResult where
  buffer : String
  logged : List String
  sentToPod : List String
deriving DecidableEq, Repr

/-- Embedding of `handle_input` for a socket present in
`active_connections`.  `buf` is the current `command_buffers[sid]` (a
missing entry is initialised to `""` by the source before use).  Empty
input data is ignored entirely (`if input_data:`).  The buffer is flushed
to the audit sink only when the event data is exactly `"\r"` or `"\n"`;
`"\x7f"` and `"\x08"` drop the last buffered character; any other data is
appended only when `str.isprintable()` holds for the whole event string.
All non-empty input is forwarded to the pod. -/
def handleInputEvent (buf : String) (data : String) : InputResult :=
  if data = "" then
    { buffer := buf, logged := [], sentToPod := [] }
  else if data = "\r" ∨ data = "\n" then
    let command := Py.strip buf
    { buffer := ""
      logged := if command = "" then [] else [command]
      sentToPod := [data] }
  else if data = "\x7f" ∨ data = "\x08" then
    { buffer := ⟨buf.data.dropLast⟩, logged := [], sentToPod := [data] }
  else if Py.isPrintableStr data then
    { buffer := buf ++ data, logged := [], sentToPod := [data] }
  else
    { buffer := buf, logged := [], sentToPod := [data] }

/-- Fold `handle_input` over a sequence of input events, collecting the
final buffer and every command logged along the way. -/
def processEvents (buf : String) (events : List String) : String × List String :=
  events.foldl
    (fun acc ev =>
      let r := handleInputEvent acc.1 ev
      (r.buffer, acc.2 ++ r.logged))
    (buf, [])

end Gateway

/-! ## Session orchestration, `backend` variant

`backend/services/session_service.py` and `backend/schemas/common.py`.
The status enumeration of this variant mirrors Kubernetes pod phases. -/

/-- A call issued against the Kubernetes cluster by the orchestrator. -/
inductive ClusterCall
  | createPod
  | createService
  | createIngress
  | waitReady
  | readPodStatus
  | deletePod
  | deleteService
  | deleteIngress
deriving DecidableEq, Repr

namespace Backend

/-- `backend/schemas/common.py` `SessionStatus`: the values coincide with
Kubernetes pod phases. -/
inductive SessionStatus
  | pending
  | running
  | succeeded
  | failed
  | unknown
deriving DecidableEq, Repr

/-- A persisted session record, reduced to the fields the claims consult. -/
structure StoredSession where
  userId : String
  status : SessionStatus
deriving DecidableEq, Repr

/-- External behaviour consumed by one `create_session` run.
`existingUserSessions` is the caller's repository content; the source
function never reads it (this variant has no per-user session limit), the
field exists so the limit claim can be stated.  `observedPhase` is what
`get_pod_status` would report after a failed readiness wait (`none` when
the pod is gone or the status call errors — both are mapped to `None` by
this variant's Kubernetes service). -/
structure CreateEnv where
  existingUserSessions : List SessionStatus
  podCreateApi : K8sApiOutcome
  podReady : Bool
  observedPhase : Option SessionStatus
deriving DecidableEq, Repr

/-- Observable outcome of one `create_session` run: the returned value or
raised error, the cluster calls issued, the status the record was created
with, and the status persisted by the final `update_status`. -/
structure CreateResult where
  outcome : Except PyErr SessionStatus
  calls : List ClusterCall
  persistedCreate : Option SessionStatus
  persistedFinal : Option SessionStatus
deriving DecidableEq, Repr

/-- Embedding of `backend` `SessionService.create_session` (lines 39-125).
There is no session-limit check.  `create_session_pod` swallows its own
exceptions and returns a boolean; `False` raises `POD_CREATION_FAILED`
before anything is persisted.  Otherwise a Pending record is persisted,
the bounded readiness wait runs, and the final status is Running on
readiness, else the status constructed from the observed pod phase
(`Failed` when the phase query returns nothing). -/
def createSession (env : CreateEnv) : CreateResult :=
  if env.podCreateApi ≠ K8sApiOutcome.success then
    { outcome := .error (.apiException "POD_CREATION_FAILED")
      calls := [.createPod]
      persistedCreate := none
      persistedFinal := none }
  else if env.podReady then
    { outcome := .ok .running
      calls := [.createPod, .waitReady]
      persistedCreate := some .pending
      persistedFinal := some .running }
  else
    let finalStatus :=
      match env.observedPhase with
      | some p => p
      | none => SessionStatus.failed
    { outcome := .ok finalStatus
      calls := [.createPod, .waitReady, .readPodStatus]
      persistedCreate := some .pending
      persistedFinal := some finalStatus }

/-- External behaviour consumed by one `get_session` run. -/
structure GetEnv where
  stored : Option StoredSession
  observedPhase : Option SessionStatus
deriving DecidableEq, Repr

/-- Observable outcome of one `get_session` run. -/
structure GetResult where
  returned : Option StoredSession
  storedAfter : Option StoredSession
  statusUpdatePersisted : Bool
deriving DecidableEq, Repr

/-- Embedding of `backend` `SessionService.get_session` (lines 177-227).
Missing record or foreign owner returns `None`.  For a Pending/Running
record the live pod status is queried; the stored status is updated only
when the query returns a phase (`if current_pod_status and ...`) that
differs from it — when the pod is gone the query returns `None` and the
stale stored status is kept and returned unchanged. -/
def getSession (env : GetEnv) (callerUserId : String) : GetResult :=
  match env.stored with
  | none => { returned := none, storedAfter := none, statusUpdatePersisted := false }
  | some s =>
    if s.userId ≠ callerUserId then
      { returned := none, storedAfter := some s, statusUpdatePersisted := false }
    else if s.status = .pending ∨ s.status = .running then
      match env.observedPhase with
      | some p =>
        if p ≠ s.status then
          let s2 := { s with status := p }
          { returned := some s2, storedAfter := some s2, statusUpdatePersisted := true }
        else
          { returned := some s, storedAfter := some s, statusUpdatePersisted := false }
      | none =>
        { returned := some s, storedAfter := some s, statusUpdatePersisted := false }
    else
      { returned := some s, storedAfter := some s, statusUpdatePersisted := false }

/-- External behaviour consumed by one `end_session` run. -/
structure EndEnv where
  stored : Option StoredSession
  podDeleteApi : K8sApiOutcome
deriving DecidableEq, Repr

/-- Observable outcome of one `end_session` run.  `podDeleteResult`
records what the teardown call reported, when it was made. -/
structure EndResult where
  outcome : Except PyErr (Option StoredSession)
  storedAfter : Option StoredSession
  deletedFromStore : Bool
  podDeleteResult : Option (Except PyErr Bool)
deriving DecidableEq, Repr

/-- Embedding of `backend` `SessionService.end_session` (lines 229-297).
Missing record or foreign owner returns `None`.  A record that is neither
Running nor Pending raises `SESSION_CANNOT_BE_ENDED`.  Otherwise the pod
deletion is attempted inside its own `try/except` whose failure is merely
logged ("Continue with status update even if pod deletion fails"), the
status is set to Succeeded unconditionally, and the session is returned
with no error.  The record is never deleted from the store here. -/
def endSession (env : EndEnv) (callerUserId : String) : EndResult :=
  match env.stored with
  | none =>
    { outcome := .ok none, storedAfter := none, deletedFromStore := false
      podDeleteResult := none }
  | some s =>
    if s.userId ≠ callerUserId then
      { outcome := .ok none, storedAfter := some s, deletedFromStore := false
        podDeleteResult := none }
    else if ¬(s.status = .running ∨ s.status = .pending) then
      { outcome := .error (.apiException "SESSION_CANNOT_BE_ENDED")
        storedAfter := some s, deletedFromStore := false
        podDeleteResult := none }
    else
      let s2 := { s with status := SessionStatus.succeeded }
      { outcome := .ok (some s2)
        storedAfter := some s2
        deletedFromStore := false
        podDeleteResult := some (deleteSessionPod env.podDeleteApi) }

end Backend
/-! ## Session orchestration, `gamgui-server` variant

`gamgui-server/services/session_service.py`,
`gamgui-server/services/kubernetes_service.py` and
`gamgui-server/schemas/common.py`. -/

namespace GSrv

/-- `gamgui-server/schemas/common.py` `SessionStatus`.  This variant has
no Pending value; Creating plays that role. -/
inductive SessionStatus
  | creating
  | running
  | stopping
  | stopped
  | terminated
  | error
deriving DecidableEq, Repr

/-- Kubernetes pod phase as reported by `read_namespaced_pod`. -/
inductive PodPhase
  | pending
  | running
  | succeeded
  | failed
  | unknown
deriving DecidableEq, Repr

/-- The `status_mapping` dictionary of `get_pod_status` (lines 180-188);
an unrecognised phase falls back to Error via `.get(..., ERROR)`. -/
def statusOfPhase : PodPhase → SessionStatus
  | .pending => .creating
  | .running => .running
  | .succeeded => .stopped
  | .failed => .error
  | .unknown => .error

/-- The pod backing a session, as the cluster would report it. -/
inductive PodState
  | absent
  | present (phase : PodPhase)
  | apiFailure
deriving DecidableEq, Repr

/-- Embedding of `gamgui-server` `KubernetesService.get_pod_status`
(lines 168-209): a 404 is not an error — it yields a successful result
with status Stopped ("Pod not found"); any other API failure raises. -/
def getPodStatus : PodState → Except PyErr SessionStatus
  | .absent => .ok .stopped
  | .present ph => .ok (statusOfPhase ph)
  | .apiFailure => .error .k8sError

/-- A persisted session record, reduced to the fields the claims consult. -/
structure StoredSession where
  userId : String
  status : SessionStatus
deriving DecidableEq, Repr

/-- Session statuses counted as active by the limit check of
`create_session` (line 44). -/
def isActive (s : SessionStatus) : Bool :=
  s = .creating || s = .running

/-- External behaviour consumed by one `create_session` run.
`userSessions` is what `session_repository.get_by_user` returns for the
caller; `maxSessionsPerUser` is `environment.MAX_SESSIONS_PER_USER`.
`podBecomesReady` is whether `_wait_for_pod_ready` observes a ready
container within its timeout; `podPhaseAfterWait` is the actual phase when
the wait gives up — the source never consults it. -/
structure CreateEnv where
  userSessions : List SessionStatus
  maxSessionsPerUser : Nat
  podCreateApi : K8sApiOutcome
  serviceCreateApi : K8sApiOutcome
  ingressCreateApi : K8sApiOutcome
  podBecomesReady : Bool
  podPhaseAfterWait : PodPhase
deriving DecidableEq, Repr

/-- Observable outcome of one `create_session` run. -/
structure CreateResult where
  outcome : Except PyErr SessionStatus
  calls : List ClusterCall
  persisted : Option SessionStatus
deriving DecidableEq, Repr

/-- Embedding of `gamgui-server` `SessionService.create_session`
(lines 39-125) together with `KubernetesService.create_session_pod`
(lines 127-166).  The limit check counts the caller's Creating/Running
sessions and raises `SESSION_LIMIT_REACHED` before any Kubernetes call.
Pod, ClusterIP service and Ingress creation follow; a failure of any of
them raises, triggers best-effort deletion of all three resources, and
surfaces `SESSION_CREATION_FAILED` with no record persisted.  The
readiness wait (`_wait_for_pod_ready`, lines 370-400) polls but returns
normally on timeout ("continuing"), after which the record is persisted
with status Running unconditionally ("Already running since K8s pod is
ready") — the readiness result and the actual phase are not consulted. -/
def createSession (env : CreateEnv) : CreateResult :=
  if env.maxSessionsPerUser ≤ (env.userSessions.filter isActive).length then
    { outcome := .error (.apiException "SESSION_LIMIT_REACHED")
      calls := []
      persisted := none }
  else if env.podCreateApi ≠ .success then
    { outcome := .error (.apiException "SESSION_CREATION_FAILED")
      calls := [.createPod, .deletePod, .deleteService, .deleteIngress]
      persisted := none }
  else if env.serviceCreateApi ≠ .success then
    { outcome := .error (.apiException "SESSION_CREATION_FAILED")
      calls := [.createPod, .createService, .deletePod, .deleteService, .deleteIngress]
      persisted := none }
  else if env.ingressCreateApi ≠ .success then
    { outcome := .error (.apiException "SESSION_CREATION_FAILED")
      calls := [.createPod, .createService, .createIngress,
                .deletePod, .deleteService, .deleteIngress]
      persisted := none }
  else
    { outcome := .ok .running
      calls := [.createPod, .createService, .createIngress, .waitReady]
      persisted := some .running }

/-- External behaviour consumed by one `get_session` run. -/
structure GetEnv where
  stored : Option StoredSession
  pod : PodState
deriving DecidableEq, Repr

/-- Observable outcome of one `get_session` run. -/
structure GetResult where
  returned : Option StoredSession
  storedAfter : Option StoredSession
  statusUpdatePersisted : Bool
deriving DecidableEq, Repr

/-- Embedding of `gamgui-server` `SessionService.get_session`
(lines 127-159).  Missing record or foreign owner returns `None`.  The
live pod status is then queried unconditionally; a raising query is
swallowed ("We continue anyway, using the stored status"); a differing
successful result is persisted and returned. -/
def getSession (env : GetEnv) (callerUserId : String) : GetResult :=
  match env.stored with
  | none => { returned := none, storedAfter := none, statusUpdatePersisted := false }
  | some s =>
    if s.userId ≠ callerUserId then
      { returned := none, storedAfter := some s, statusUpdatePersisted := false }
    else
      match getPodStatus env.pod with
      | .ok p =>
        if s.status ≠ p then
          let s2 := { s with status := p }
          { returned := some s2, storedAfter := some s2, statusUpdatePersisted := true }
        else
          { returned := some s, storedAfter := some s, statusUpdatePersisted := false }
      | .error _ =>
        { returned := some s, storedAfter := some s, statusUpdatePersisted := false }

/-- External behaviour consumed by one `delete_session` run. -/
structure DelEnv where
  stored : Option StoredSession
  podDeleteApi : K8sApiOutcome
  serviceDeleteApi : K8sApiOutcome
  ingressDeleteApi : K8sApiOutcome
deriving DecidableEq, Repr

/-- Observable outcome of one `delete_session` run.  `statusUpdates` is
the sequence of statuses written through `update_status`. -/
structure DelResult where
  outcome : Except PyErr Bool
  storedAfter : Option StoredSession
  deletedFromStore : Bool
  statusUpdates : List SessionStatus
deriving DecidableEq, Repr

/-- Embedding of `gamgui-server` `SessionService.delete_session`
(lines 188-240).  Missing record or foreign owner returns `False`.  The
record is first marked Stopping, then pod, service and ingress deletion
run in order; the first raising teardown call aborts, marks the record
Error — keeping it in the store "for debugging" — and raises
`SESSION_DELETION_FAILED`.  Only after all three succeed is the record
hard-deleted from the store. -/
def deleteSession (env : DelEnv) (callerUserId : String) : DelResult :=
  match env.stored with
  | none =>
    { outcome := .ok false, storedAfter := none, deletedFromStore := false
      statusUpdates := [] }
  | some s =>
    if s.userId ≠ callerUserId then
      { outcome := .ok false, storedAfter := some s, deletedFromStore := false
        statusUpdates := [] }
    else
      match deleteSessionPod env.podDeleteApi with
      | .error _ =>
        { outcome := .error (.apiException "SESSION_DELETION_FAILED")
          storedAfter := some { s with status := SessionStatus.error }
          deletedFromStore := false
          statusUpdates := [.stopping, .error] }
      | .ok _ =>
        match deleteSessionService env.serviceDeleteApi with
        | .error _ =>
          { outcome := .error (.apiException "SESSION_DELETION_FAILED")
            storedAfter := some { s with status := SessionStatus.error }
            deletedFromStore := false
            statusUpdates := [.stopping, .error] }
        | .ok _ =>
          match deleteSessionIngress env.ingressDeleteApi with
          | .error _ =>
            { outcome := .error (.apiException "SESSION_DELETION_FAILED")
              storedAfter := some { s with status := SessionStatus.error }
              deletedFromStore := false
              statusUpdates := [.stopping, .error] }
          | .ok _ =>
            { outcome := .ok true
              storedAfter := none
              deletedFromStore := true
              statusUpdates := [.stopping] }

end GSrv

/-- A teardown call fails — for a reason other than the resource being
already gone — exactly when the underlying API call raises an exception
that is not a 404 `ApiException`. -/
def K8sApiOutcome.failsTeardown : K8sApiOutcome → Bool
  | .success => false
  | .apiErr n => n ≠ 404
  | .otherExc => true
/-! ## C7 — audit flush versus connection-state removal on disconnect

`backend/controllers/socketio_controller.py`:
`_read_from_exec_stream` (lines 276-333), `_flush_output_buffer`
(lines 335-347) and `disconnect_session` (lines 248-274), with the
Socket.IO `disconnect` event of `backend/services/socketio_service.py`
calling `disconnect_session` directly.

The two concurrent tasks for one connection are modelled as explicit
atomic steps over a shared state; awaits inside the relay loop body are
coarsened to one step per loop iteration, which only restricts the set of
interleavings, so any losing interleaving exhibited here exists in the
source.  The relay loop runs `while sid in self.active_connections`; the
disconnect event removes the sid from `active_connections`; the final
flush delegates to `_flush_output_buffer`, which writes only
`if sid in self.active_connections`. -/

namespace Relay

/-- What one iteration of the relay loop observes from the exec stream:
whether `is_open()` holds, the data returned by `read_stdout` and
`read_stderr` (empty string meaning no data, as in the source where an
empty read is falsy), and whether the 500 ms quiet period had elapsed at
the top-of-loop time check. -/
structure Tick where
  streamOpen : Bool
  stdoutData : String
  stderrData : String
  quietElapsed : Bool
deriving DecidableEq, Repr

/-- Program counter of the relay task. -/
inductive RelayPC
  | loop
  | finalFlush
  | cleanup
  | done
deriving DecidableEq, Repr

/-- Shared state of one connection: the registry membership (`sid in
self.active_connections`), the relay-local `output_buffer`, the audit
sink writes so far, the data emitted to the client socket, the remaining
exec-stream script, the relay program counter, and whether the Socket.IO
disconnect event has fired. -/
structure SysState where
  registered : Bool
  outputBuffer : String
  auditLog : List String
  sentToClient : List String
  ticks : List Tick
  pc : RelayPC
  discoFired : Bool
deriving DecidableEq, Repr

/-- The two tasks that interleave for one connection. -/
inductive Task
  | relay
  | disco
deriving DecidableEq, Repr

/-- One step of the Socket.IO `disconnect` event handler: it runs
`disconnect_session(sid)`, whose body contains no await — close the exec
stream and remove the sid from `active_connections` (and the command
buffer).  The event fires at most once. -/
def discoStep (s : SysState) : SysState :=
  if s.discoFired then s
  else { s with registered := false, discoFired := true }

/-- One step of the relay task `_read_from_exec_stream`.

In `.loop`: re-check the `while` condition; when still registered and the
stream is open, perform one loop iteration — read stdout and stderr,
forward any data to the client, append it to `output_buffer`, and flush
the buffer to the audit sink when it is non-empty, nothing arrived this
iteration, and the quiet period elapsed (when data arrives,
`last_output_time` is set to `current_time`, making the elapsed check
false).  A closed stream breaks out of the loop; an exhausted script is
modelled as a closed stream.

In `.finalFlush`: the code after the loop — `if output_buffer:` call
`_flush_output_buffer`, which itself writes only when the sid is still in
`active_connections`.

In `.cleanup`: the `finally:` block calls `disconnect_session(sid)`,
removing the sid if still present. -/
def relayStep (s : SysState) : SysState :=
  match s.pc with
  | .loop =>
    if !s.registered then { s with pc := .finalFlush }
    else
      match s.ticks with
      | [] => { s with pc := .finalFlush }
      | t :: rest =>
        if !t.streamOpen then { s with ticks := rest, pc := .finalFlush }
        else
          let gotData := t.stdoutData ≠ "" ∨ t.stderrData ≠ ""
          let buf1 := s.outputBuffer ++ t.stdoutData ++ t.stderrData
          let sent1 := s.sentToClient ++
            (if t.stdoutData = "" then [] else [t.stdoutData]) ++
            (if t.stderrData = "" then [] else [t.stderrData])
          if buf1 ≠ "" ∧ ¬gotData ∧ t.quietElapsed then
            { s with outputBuffer := "", auditLog := s.auditLog ++ [buf1]
                     sentToClient := sent1, ticks := rest }
          else
            { s with outputBuffer := buf1, sentToClient := sent1, ticks := rest }
  | .finalFlush =>
    if s.outputBuffer ≠ "" ∧ s.registered then
      { s with auditLog := s.auditLog ++ [s.outputBuffer], pc := .cleanup }
    else
      { s with pc := .cleanup }
  | .cleanup => { s with registered := false, pc := .done }
  | .done => s

/-- Execute one scheduled task. -/
def step (s : SysState) : Task → SysState
  | .relay => relayStep s
  | .disco => discoStep s

/-- Run a whole schedule. -/
def run (s : SysState) (sched : List Task) : SysState :=
  sched.foldl step s

/-- Initial state of a freshly bound connection whose exec stream will
deliver `ticks`. -/
def init (ticks : List Tick) : SysState :=
  { registered := true, outputBuffer := "", auditLog := [], sentToClient := []
    ticks := ticks, pc := .loop, discoFired := false }

/-- A stream script delivering the given stdout chunks, one per loop
iteration, with the stream open and no quiet period elapsing. -/
def outputScript (outs : List String) : List Tick :=
  outs.map (fun o => { streamOpen := true, stdoutData := o, stderrData := ""
                       quietElapsed := false })

/-- Concatenation of a list of strings. -/
def joinAll : List String → String
  | [] => ""
  | s :: rest => s ++ joinAll rest

end Relay
/-! ## C9 — output cleaning

`backend/services/audit_service.py`, `AuditService._clean_output`
(lines 148-195).  The function applies three regex removal passes, two
control-character removals, per-line carriage-return removal / stripping /
empty-line dropping, a printability filter, an emptiness check and a
5000-character truncation. -/

namespace Audit

/-- First character class of the `ansi_escape` pattern (line 162): ESC
followed either by one character of `[@-Z\\-_]` or by a CSI sequence.
The class `[@-Z\\-_]` is the code points `0x40`-`0x5a` together with
`0x5c`-`0x5f` (the range from backslash to underscore). -/
def isEscSingleFinal (c : Char) : Bool :=
  (0x40 ≤ c.toNat && c.toNat ≤ 0x5a) || (0x5c ≤ c.toNat && c.toNat ≤ 0x5f)

/-- CSI parameter class `[0-?]` = `0x30`-`0x3f`. -/
def isCsiParam (c : Char) : Bool := 0x30 ≤ c.toNat && c.toNat ≤ 0x3f

/-- CSI intermediate class (space through slash) = `0x20`-`0x2f`. -/
def isCsiInter (c : Char) : Bool := 0x20 ≤ c.toNat && c.toNat ≤ 0x2f

/-- CSI final class `[@-~]` = `0x40`-`0x7e`. -/
def isCsiFinal (c : Char) : Bool := 0x40 ≤ c.toNat && c.toNat ≤ 0x7e

/-- Length of a match of the main ANSI pattern at the head of the list,
if any.  The three classes of the CSI tail occupy disjoint code-point
ranges, so maximal munch coincides with the backtracking engine; the two
alternatives are disjoint because `[` (0x5b) is excluded from the
single-final class. -/
def ansiMatchLen : List Char → Option Nat
  | [] => none
  | e :: rest =>
    if e ≠ '\x1b' then none
    else
      match rest with
      | [] => none
      | c :: rest2 =>
        if c = '[' then
          let ps := rest2.takeWhile isCsiParam
          let rest3 := rest2.drop ps.length
          let its := rest3.takeWhile isCsiInter
          match rest3.drop its.length with
          | f :: _ => if isCsiFinal f then some (3 + ps.length + its.length) else none
          | [] => none
        else if isEscSingleFinal c then some 2
        else none

/-- Length of a match of `\x1B\([AB]` at the head of the list, if any. -/
def escParenMatchLen : List Char → Option Nat
  | e :: p :: c :: _ =>
    if e = '\x1b' ∧ p = '(' ∧ (c = 'A' ∨ c = 'B') then some 3 else none
  | _ => none

/-- Class `[\d;]` restricted to ASCII digits. -/
def isDigitSemi (c : Char) : Bool := c.isDigit || c = ';'

/-- Length of a match of `\x1B\[[\d;]*[HJKmsu]` at the head of the list,
if any.  The digit class and the final class are disjoint, so maximal
munch coincides with the backtracking engine. -/
def csiCursorMatchLen : List Char → Option Nat
  | e :: b :: rest =>
    if e = '\x1b' ∧ b = '[' then
      let ds := rest.takeWhile isDigitSemi
      match rest.drop ds.length with
      | f :: _ =>
        if f = 'H' ∨ f = 'J' ∨ f = 'K' ∨ f = 'm' ∨ f = 's' ∨ f = 'u' then
          some (3 + ds.length)
        else none
      | [] => none
    else none
  | _ => none

/-- One `re.sub(pattern, "", s)` pass: scan left to right, delete each
non-overlapping match (every matcher above consumes at least one
character on success), copy other characters.  Fuel bounds the recursion
by the input length. -/
def scanRemove (matcher : List Char → Option Nat) : Nat → List Char → List Char
  | 0, cs => cs
  | _ + 1, [] => []
  | fuel + 1, c :: rest =>
    match matcher (c :: rest) with
    | some n => scanRemove matcher fuel ((c :: rest).drop n)
    | none => c :: scanRemove matcher fuel rest

/-- The regex and control-character removal prefix of `_clean_output`
(lines 161-169): the main ANSI pattern, `\x1B\([AB]`,
`\x1B\[[\d;]*[HJKmsu]`, then removal of `\x0e`/`\x0f` and of `\x07`. -/
def stripControlPasses (cs : List Char) : List Char :=
  let c1 := scanRemove ansiMatchLen cs.length cs
  let c2 := scanRemove escParenMatchLen c1.length c1
  let c3 := scanRemove csiCursorMatchLen c2.length c2
  let c4 := c3.filter (fun c => c ≠ '\x0e' && c ≠ '\x0f')
  c4.filter (fun c => c ≠ '\x07')

/-- Python `str.split("\n")`: splitting the empty string yields `[""]`,
and every `\n` separates (possibly empty) lines. -/
def splitLines : List Char → List (List Char)
  | [] => [[]]
  | c :: rest =>
    let r := splitLines rest
    if c = '\n' then [] :: r
    else (c :: r.headI) :: r.tail

/-- Python `"\n".join(...)` on character lists. -/
def joinLines : List (List Char) → List Char
  | [] => []
  | [l] => l
  | l :: ls => l ++ '\n' :: joinLines ls

/-- The check `re.match(r"^[\s\x00-\x1F]*$", line)`: every character of
the line is regex whitespace or a C0 control. -/
def isAllWsOrC0 (cs : List Char) : Bool :=
  cs.all (fun c => Py.isSpace c || c.toNat ≤ 0x1f)

/-- Per-line processing (lines 174-179): `line.replace("\r", "")` then
`.strip()`. -/
def cleanLine (l : List Char) : List Char :=
  Py.stripList (l.filter (fun c => c ≠ '\r'))

/-- The keep condition `if line and not re.match(...)` applied to the
already-cleaned line. -/
def keepLine (l : List Char) : Bool :=
  !l.isEmpty && !isAllWsOrC0 l

/-- The per-line stage: split on newlines, clean each line, keep the
non-empty meaningful ones. -/
def processedLines (cs : List Char) : List (List Char) :=
  ((splitLines cs).map cleanLine).filter keepLine

/-- The final character filter (line 184): keep printable characters and
newline/tab. -/
def printableOrNlTab (c : Char) : Bool :=
  Py.isPrintable c || c = '\n' || c = '\t'

/-- The truncation marker appended at the 5000-character limit. -/
def truncationMarker : List Char := "\n... [OUTPUT TRUNCATED] ...".data

/-- Embedding of `AuditService._clean_output` on character lists. -/
def cleanOutputList (cs : List Char) : List Char :=
  if cs.isEmpty then []
  else
    let c1 := stripControlPasses cs
    let c2 := joinLines (processedLines c1)
    let c3 := c2.filter printableOrNlTab
    if (Py.stripList c3).isEmpty then []
    else if 5000 < c3.length then c3.take 5000 ++ truncationMarker
    else c3

/-- Embedding of `AuditService._clean_output`. -/
def cleanOutput (s : String) : String :=
  ⟨cleanOutputList s.data⟩

/-- Modelled from the spec: the "trailing-whitespace and empty-line
normalization" the spec allows cleaning to perform on already-clean
input — strip every line and drop the lines that become empty.  Used to
compare `cleanOutput` against the spec on ANSI-free, control-free
inputs. -/
def normalizeLines (cs : List Char) : List Char :=
  joinLines (((splitLines cs).map Py.stripList).filter (fun l => !l.isEmpty))

end Audit
/-! ## Theorems -/

/-- C10: in the sidecar (session-manager) variant, the per-connection
cleanup that runs when one WebSocket connection closes empties the
process-wide running-command registry and attempts `terminate()` on every
tracked command — including every command started by a different,
still-connected client.  Cleanup is not scoped to the disconnecting
connection. -/
theorem sidecar_cleanup_cancels_all_commands_process_wide
    (st : Sidecar.ControllerState) (connectionId : String) :
    (Sidecar.cleanupConnection st connectionId).ctrl.gam.runningProcesses = [] ∧
    (Sidecar.cleanupConnection st connectionId).terminateAttempts =
      st.gam.runningProcesses.map (fun p => p.1) ∧
    ∀ cid proc, (cid, proc) ∈ st.gam.runningProcesses →
      proc.startedBy ≠ connectionId →
      cid ∈ (Sidecar.cleanupConnection st connectionId).terminateAttempts := by
  refine ⟨rfl, rfl, ?_⟩
  intro cid proc hmem _
  simpa [Sidecar.cleanupConnection, Sidecar.cancelAllCommands] using
    List.mem_map_of_mem (fun p => p.1) hmem

/-- C10 witness: a registry holding a command started by a still-connected
other client is nevertheless emptied, and that command receives
`terminate()`, when an unrelated connection cleans up. -/
theorem sidecar_cleanup_cancels_all_commands_witness :
    (Sidecar.cleanupConnection
      { activeConnections := ["alice", "bob"]
        gam := { runningProcesses := [("cmd1", ⟨"alice", false⟩)] } }
      "bob").ctrl.gam.runningProcesses = [] ∧
    "cmd1" ∈ (Sidecar.cleanupConnection
      { activeConnections := ["alice", "bob"]
        gam := { runningProcesses := [("cmd1", ⟨"alice", false⟩)] } }
      "bob").terminateAttempts := by
  have h := sidecar_cleanup_cancels_all_commands_process_wide
    { activeConnections := ["alice", "bob"]
      gam := { runningProcesses := [("cmd1", ⟨"alice", false⟩)] } } "bob"
  exact ⟨h.1, h.2.2 "cmd1" ⟨"alice", false⟩ (by decide) (by decide)⟩

/-- C8 counterexample: in the `backend` variant a non-404 Kubernetes API
error during pod deletion is not propagated to the caller — the call
returns `False` (every exception is caught inside `delete_session_pod`),
contradicting the claim that only a 404 is converted to a return value
while other API errors are propagated. -/
theorem backend_delete_pod_swallows_api_error_cex :
    Backend.deleteSessionPod (.apiErr 500) = .ok false := rfl

/-- C8 (amended): both variants treat a missing resource (404) as success
(return `True`), so deleting a session whose pod, service or ingress is
already gone succeeds; the `gamgui-server` variant propagates every other
API error and unexpected exception, while the `backend` variant catches
them and returns `False` instead of propagating. -/
theorem delete_pod_not_found_is_success :
    (Backend.deleteSessionPod .success = .ok true ∧
     Backend.deleteSessionPod (.apiErr 404) = .ok true ∧
     GSrv.deleteSessionPod .success = .ok true ∧
     GSrv.deleteSessionPod (.apiErr 404) = .ok true ∧
     GSrv.deleteSessionService (.apiErr 404) = .ok true ∧
     GSrv.deleteSessionIngress (.apiErr 404) = .ok true) ∧
    (∀ n : Nat, n ≠ 404 →
      GSrv.deleteSessionPod (.apiErr n) = .error .k8sError) ∧
    GSrv.deleteSessionPod .otherExc = .error .k8sError ∧
    (∀ api : K8sApiOutcome, ∃ b : Bool, Backend.deleteSessionPod api = .ok b) := by
  refine ⟨⟨rfl, rfl, rfl, rfl, rfl, rfl⟩, ?_, rfl, ?_⟩
  · intro n hn
    simp [GSrv.deleteSessionPod, hn]
  · intro api
    cases api with
    | success => exact ⟨true, rfl⟩
    | apiErr n =>
      by_cases h : n = 404
      · exact ⟨true, by simp [Backend.deleteSessionPod, h]⟩
      · exact ⟨false, by simp [Backend.deleteSessionPod, h]⟩
    | otherExc => exact ⟨false, rfl⟩

/-- C8 witness: instantiating the amended theorem at a concrete non-404
status shows the `gamgui-server` variant propagating a 500. -/
theorem delete_pod_not_found_is_success_witness :
    GSrv.deleteSessionPod (.apiErr 500) = .error .k8sError :=
  delete_pod_not_found_is_success.2.1 500 (by decide)

/-- C2: the claim is right and the code is wrong.  The replacement
template `\1=***REDACTED***` references capturing group 1, but the third,
fourth and fifth patterns of `_filter_sensitive_data` have no capturing
group, so CPython raises `re.error("invalid group reference")` on the
third `re.sub` call for every input; `log_command` catches the exception
and writes no audit entry at all.  In particular, for a command
containing `password=secret123` no payload is written — so no written
payload contains the secret, but none preserves the key name with the
redaction marker either, contrary to the function documentation ("Filtered
command with sensitive data redacted") and to the claim. -/
theorem audit_log_command_writes_nothing :
    (∀ command : String,
      Audit.filterSensitiveData command = .error .reError) ∧
    Audit.logCommand "user1" "sess_1" "gam update user password=secret123" = [] ∧
    Audit.patPassword.substitute "gam update user password=secret123".data =
      "gam update user password=***REDACTED***".data := by
  refine ⟨fun _ => rfl, rfl, by decide⟩

/-- C6 counterexample: a bound connection that sends the terminal input
`"ls -la\r"` as one input event triggers no `log_command` call at all —
the event is not exactly `"\r"` or `"\n"`, is not a backspace, and fails
`str.isprintable()` because of the carriage return, so the buffer stays
empty and nothing is flushed; the claim expects exactly one call with
`"ls -la"`. -/
theorem handle_input_single_event_not_logged_cex :
    (Gateway.processEvents "" ["ls -la\x0d"]).2 = [] ∧
    (Gateway.processEvents "" ["ls -la\x0d"]).2 ≠ ["ls -la"] := by
  constructor
  · rfl
  · decide

/-- C6 (amended): when the terminal input `"ls -la\r"` arrives as
individual keystroke events (as an interactive terminal sends it), the
gateway logs exactly one command, `"ls -la"`, trimmed and without the
carriage return; in general a `handle_input` call flushes the
whitespace-trimmed line buffer to the audit sink exactly when its event
data is exactly a carriage return or newline, clears the buffer then, and
logs nothing when the trimmed buffer is empty. -/
theorem handle_input_flush_on_cr_lf :
    (Gateway.processEvents "" ["l", "s", " ", "-", "l", "a", "\x0d"]).2 = ["ls -la"] ∧
    (∀ buf data : String,
      (Gateway.handleInputEvent buf data).logged =
        if data = "\x0d" ∨ data = "\x0a" then
          (if Py.strip buf = "" then [] else [Py.strip buf])
        else []) ∧
    (∀ buf data : String,
      (Gateway.handleInputEvent buf data).buffer =
        if data = "\x0d" ∨ data = "\x0a" then "" else
          (Gateway.handleInputEvent buf data).buffer) := by
  refine ⟨by decide, ?_, ?_⟩
  · intro buf data
    by_cases h0 : data = ""
    · subst h0
      simp [Gateway.handleInputEvent]
    · by_cases h1 : data = "\x0d" ∨ data = "\x0a"
      · simp [Gateway.handleInputEvent, h0, h1]
      · by_cases h2 : data = "\x7f" ∨ data = "\x08"
        · simp [Gateway.handleInputEvent, h0, h1, h2]
        · by_cases h3 : Py.isPrintableStr data
          · simp [Gateway.handleInputEvent, h0, h1, h2, h3]
          · simp [Gateway.handleInputEvent, h0, h1, h2, h3]
  · intro buf data
    by_cases h1 : data = "\x0d" ∨ data = "\x0a"
    · have h0 : data ≠ "" := by
        rcases h1 with h | h <;> subst h <;> decide
      simp [Gateway.handleInputEvent, h0, h1]
    · simp [h1]
/-- C1 counterexample: the `backend` variant has no session-limit check at
all — for a user whose repository already holds five active (Running)
sessions, `create_session` still succeeds, issues the pod-creation cluster
call and persists a new session record, instead of failing with the
session-limit error before any cluster call. -/
theorem backend_create_ignores_session_limit_cex :
    (Backend.createSession
      { existingUserSessions := List.replicate 5 .running
        podCreateApi := .success, podReady := true
        observedPhase := some .running }).outcome = .ok .running ∧
    ClusterCall.createPod ∈ (Backend.createSession
      { existingUserSessions := List.replicate 5 .running
        podCreateApi := .success, podReady := true
        observedPhase := some .running }).calls ∧
    (Backend.createSession
      { existingUserSessions := List.replicate 5 .running
        podCreateApi := .success, podReady := true
        observedPhase := some .running }).persistedCreate = some .pending ∧
    ((List.replicate 5 Backend.SessionStatus.running).filter
      (fun s => s = .pending || s = .running)).length = 5 := by
  decide

/-- C1 (amended): only the `gamgui-server` variant enforces the per-user
session limit.  There, for every caller whose repository already holds at
least `MAX_SESSIONS_PER_USER` active (Creating/Running — this variant has
no Pending status) sessions, `create_session` fails with
`SESSION_LIMIT_REACHED` before any cluster call: no Kubernetes call is
issued and no session record is persisted.  The `backend` variant performs
no limit check. -/
theorem gsrv_create_session_limit_enforced (env : GSrv.CreateEnv)
    (h : env.maxSessionsPerUser ≤ (env.userSessions.filter GSrv.isActive).length) :
    (GSrv.createSession env).outcome = .error (.apiException "SESSION_LIMIT_REACHED") ∧
    (GSrv.createSession env).calls = [] ∧
    (GSrv.createSession env).persisted = none := by
  unfold GSrv.createSession
  rw [if_pos h]
  exact ⟨rfl, rfl, rfl⟩

/-- C1 witness: a caller with five Running sessions at a limit of five is
rejected with no cluster call and nothing persisted. -/
theorem gsrv_create_session_limit_enforced_witness :
    (GSrv.createSession
      { userSessions := List.replicate 5 .running, maxSessionsPerUser := 5
        podCreateApi := .success, serviceCreateApi := .success
        ingressCreateApi := .success, podBecomesReady := true
        podPhaseAfterWait := .running }).outcome =
      .error (.apiException "SESSION_LIMIT_REACHED") ∧
    (GSrv.createSession
      { userSessions := List.replicate 5 .running, maxSessionsPerUser := 5
        podCreateApi := .success, serviceCreateApi := .success
        ingressCreateApi := .success, podBecomesReady := true
        podPhaseAfterWait := .running }).calls = [] :=
  let h := gsrv_create_session_limit_enforced
    { userSessions := List.replicate 5 .running, maxSessionsPerUser := 5
      podCreateApi := .success, serviceCreateApi := .success
      ingressCreateApi := .success, podBecomesReady := true
      podPhaseAfterWait := .running } (by decide)
  ⟨h.1, h.2.1⟩

/-- C3 counterexample: the `gamgui-server` variant persists the session as
Running unconditionally after pod creation — here the readiness wait does
not succeed (`podBecomesReady = false`) and the actual pod phase is
Failed, yet the record is persisted with status Running and no pod-phase
query is made after the wait; the claim says Running is never persisted
without readiness success or an observed Running phase. -/
theorem gsrv_create_persists_running_unconditionally_cex :
    (GSrv.createSession
      { userSessions := [], maxSessionsPerUser := 5
        podCreateApi := .success, serviceCreateApi := .success
        ingressCreateApi := .success, podBecomesReady := false
        podPhaseAfterWait := .failed }).persisted = some .running ∧
    (GSrv.createSession
      { userSessions := [], maxSessionsPerUser := 5
        podCreateApi := .success, serviceCreateApi := .success
        ingressCreateApi := .success, podBecomesReady := false
        podPhaseAfterWait := .failed }).outcome = .ok .running ∧
    ClusterCall.readPodStatus ∉ (GSrv.createSession
      { userSessions := [], maxSessionsPerUser := 5
        podCreateApi := .success, serviceCreateApi := .success
        ingressCreateApi := .success, podBecomesReady := false
        podPhaseAfterWait := .failed }).calls := by
  decide

/-- C3 (amended): the claimed behaviour holds in the `backend` variant:
after pod creation, a failed readiness wait leads to a pod-phase query and
the persisted final status is derived from the observed phase (the phase
itself, or Failed when the pod is gone); the session is never persisted as
Running unless the readiness wait succeeded or the observed phase was
Running.  The `gamgui-server` variant instead persists Running
unconditionally. -/
theorem backend_create_final_status_from_wait_or_phase (env : Backend.CreateEnv) :
    ((Backend.createSession env).persistedFinal = some .running →
      env.podReady = true ∨ env.observedPhase = some .running) ∧
    (env.podCreateApi = .success → env.podReady = false →
      (Backend.createSession env).persistedFinal =
        some (match env.observedPhase with
              | some p => p
              | none => Backend.SessionStatus.failed) ∧
      ClusterCall.readPodStatus ∈ (Backend.createSession env).calls) := by
  obtain ⟨ex, api, ready, phase⟩ := env
  by_cases hc : api = K8sApiOutcome.success
  · subst hc
    cases ready with
    | false =>
      refine ⟨?_, ?_⟩
      · intro hfinal
        cases phase with
        | none => simp [Backend.createSession] at hfinal
        | some p =>
          simp [Backend.createSession] at hfinal
          exact Or.inr (by simp [hfinal])
      · intro _ _
        simp [Backend.createSession]
    | true =>
      refine ⟨fun _ => Or.inl rfl, ?_⟩
      intro _ hcontra
      simp at hcontra
  · refine ⟨?_, fun hc2 _ => absurd hc2 hc⟩
    intro hfinal
    simp [Backend.createSession, hc] at hfinal
/-- C3 witness: with a created pod, a failed readiness wait and an
observed Failed phase, the `backend` variant persists Failed (derived from
the observed phase) after querying the pod status. -/
theorem backend_create_final_status_from_wait_or_phase_witness :
    (Backend.createSession
      { existingUserSessions := [], podCreateApi := .success
        podReady := false, observedPhase := some .failed }).persistedFinal =
      some .failed ∧
    ClusterCall.readPodStatus ∈ (Backend.createSession
      { existingUserSessions := [], podCreateApi := .success
        podReady := false, observedPhase := some .failed }).calls :=
  (backend_create_final_status_from_wait_or_phase
    { existingUserSessions := [], podCreateApi := .success
      podReady := false, observedPhase := some .failed }).2 rfl rfl

/-- C4 counterexample: in the `backend` variant, when the stored status is
Running but the pod is gone (`get_pod_status` returns `None`), the owner's
next `get_session` neither updates the stored status nor returns a
terminal one — the stale Running record is returned unchanged, because the
update is guarded by `if current_pod_status and ...`. -/
theorem backend_get_session_stale_running_cex :
    (Backend.getSession
      { stored := some ⟨"u1", .running⟩, observedPhase := none } "u1").returned =
      some ⟨"u1", .running⟩ ∧
    (Backend.getSession
      { stored := some ⟨"u1", .running⟩, observedPhase := none } "u1").storedAfter =
      some ⟨"u1", .running⟩ ∧
    (Backend.getSession
      { stored := some ⟨"u1", .running⟩, observedPhase := none } "u1").statusUpdatePersisted =
      false := by
  decide

/-- C4 (amended): the claimed reconciliation holds in the `gamgui-server`
variant: its `get_pod_status` maps a missing pod (404) to Stopped, so for
any stored status other than Stopped the owner's next `get_session`
persists Stopped — a terminal status — and returns the session carrying
it.  In the `backend` variant a missing pod makes `get_pod_status` return
`None` and the stale Running status is kept and returned. -/
theorem gsrv_get_session_reconciles_missing_pod
    (s : GSrv.StoredSession) (caller : String)
    (howner : s.userId = caller) (hst : s.status ≠ .stopped) :
    (GSrv.getSession { stored := some s, pod := .absent } caller).returned =
      some { s with status := .stopped } ∧
    (GSrv.getSession { stored := some s, pod := .absent } caller).storedAfter =
      some { s with status := .stopped } ∧
    (GSrv.getSession { stored := some s, pod := .absent } caller).statusUpdatePersisted =
      true := by
  unfold GSrv.getSession
  simp [GSrv.getPodStatus, howner, hst]

/-- C4 witness: a Running record owned by the caller whose pod is gone is
returned as Stopped and persisted as Stopped. -/
theorem gsrv_get_session_reconciles_missing_pod_witness :
    (GSrv.getSession
      { stored := some ⟨"u1", .running⟩, pod := .absent } "u1").returned =
      some ⟨"u1", .stopped⟩ ∧
    (GSrv.getSession
      { stored := some ⟨"u1", .running⟩, pod := .absent } "u1").statusUpdatePersisted =
      true :=
  let h := gsrv_get_session_reconciles_missing_pod ⟨"u1", .running⟩ "u1" rfl (by decide)
  ⟨h.1, h.2.2⟩

/-- C5 counterexample: in the `backend` variant, a teardown failure during
`end_session` (here the pod deletion hits a 500 `ApiException`, reported
as `False` by `delete_session_pod`) is swallowed: the session is persisted
as Succeeded — not Failed/Error — the record is kept, and the caller
receives the session with no error surfaced. -/
theorem backend_end_session_swallows_teardown_failure_cex :
    (Backend.endSession
      { stored := some ⟨"u1", .running⟩, podDeleteApi := .apiErr 500 } "u1").outcome =
      .ok (some ⟨"u1", .succeeded⟩) ∧
    (Backend.endSession
      { stored := some ⟨"u1", .running⟩, podDeleteApi := .apiErr 500 } "u1").storedAfter =
      some ⟨"u1", .succeeded⟩ ∧
    (Backend.endSession
      { stored := some ⟨"u1", .running⟩, podDeleteApi := .apiErr 500 } "u1").podDeleteResult =
      some (.ok false) ∧
    (Backend.endSession
      { stored := some ⟨"u1", .running⟩, podDeleteApi := .apiErr 500 } "u1").deletedFromStore =
      false := by
  decide

/-- Helper: a `gamgui-server` teardown call raises exactly when the API
outcome is a failure other than 404, and otherwise returns `True`. -/
theorem gsrv_delete_call_characterisation (api : K8sApiOutcome) :
    GSrv.deleteSessionPod api =
      (if api.failsTeardown then .error .k8sError else .ok true) := by
  cases api with
  | success => rfl
  | apiErr n =>
    by_cases h : n = 404 <;>
      simp [GSrv.deleteSessionPod, K8sApiOutcome.failsTeardown, h]
  | otherExc => rfl

/-- Helper: the three teardown functions of the `gamgui-server` variant
have identical bodies. -/
theorem gsrv_delete_service_eq_pod : GSrv.deleteSessionService = GSrv.deleteSessionPod := rfl

/-- Helper: ingress deletion also shares the body of pod deletion. -/
theorem gsrv_delete_ingress_eq_pod : GSrv.deleteSessionIngress = GSrv.deleteSessionPod := rfl

/-- C5 (amended): the claimed error handling holds in the `gamgui-server`
variant: when any of the three teardown calls of `delete_session` fails
for a reason other than the resource being already gone, the record is set
to Error, it is not deleted from the store, and `SESSION_DELETION_FAILED`
is raised to the caller.  The `backend` variant's `end_session` instead
swallows teardown failures and marks the session Succeeded. -/
theorem gsrv_delete_session_marks_error_on_teardown_failure
    (env : GSrv.DelEnv) (s : GSrv.StoredSession) (caller : String)
    (hstored : env.stored = some s) (howner : s.userId = caller)
    (hfail : env.podDeleteApi.failsTeardown = true ∨
             env.serviceDeleteApi.failsTeardown = true ∨
             env.ingressDeleteApi.failsTeardown = true) :
    (GSrv.deleteSession env caller).outcome =
      .error (.apiException "SESSION_DELETION_FAILED") ∧
    (GSrv.deleteSession env caller).storedAfter = some { s with status := .error } ∧
    (GSrv.deleteSession env caller).deletedFromStore = false := by
  unfold GSrv.deleteSession
  rw [hstored, gsrv_delete_service_eq_pod, gsrv_delete_ingress_eq_pod,
    gsrv_delete_call_characterisation env.podDeleteApi,
    gsrv_delete_call_characterisation env.serviceDeleteApi,
    gsrv_delete_call_characterisation env.ingressDeleteApi]
  by_cases h1 : env.podDeleteApi.failsTeardown
  · simp [howner, h1]
  · by_cases h2 : env.serviceDeleteApi.failsTeardown
    · simp [howner, h1, h2]
    · by_cases h3 : env.ingressDeleteApi.failsTeardown
      · simp [howner, h1, h2, h3]
      · exact absurd hfail (by simp [h1, h2, h3])

/-- C5 witness: a Running record whose service deletion hits a 500 is
marked Error, kept in the store, and the caller gets
`SESSION_DELETION_FAILED`. -/
theorem gsrv_delete_session_marks_error_witness :
    (GSrv.deleteSession
      { stored := some ⟨"u1", .running⟩, podDeleteApi := .success
        serviceDeleteApi := .apiErr 500, ingressDeleteApi := .success } "u1").outcome =
      .error (.apiException "SESSION_DELETION_FAILED") ∧
    (GSrv.deleteSession
      { stored := some ⟨"u1", .running⟩, podDeleteApi := .success
        serviceDeleteApi := .apiErr 500, ingressDeleteApi := .success } "u1").storedAfter =
      some ⟨"u1", .error⟩ :=
  let h := gsrv_delete_session_marks_error_on_teardown_failure
    { stored := some ⟨"u1", .running⟩, podDeleteApi := .success
      serviceDeleteApi := .apiErr 500, ingressDeleteApi := .success }
    ⟨"u1", .running⟩ "u1" rfl rfl (Or.inr (Or.inl (by decide)))
  ⟨h.1, h.2.1⟩
/-- C7 counterexample: an interleaving in which the Socket.IO disconnect
event runs between a relay-loop iteration that buffered output and the
loop's next registration check.  The disconnect handler removes the
connection from the registry; the relay loop then exits and its final
flush is skipped, because `_flush_output_buffer` writes only
`if sid in self.active_connections` — the buffered `"hello"` that was
relayed to the client is never written to the audit sink, contradicting
the claim that the audit flush happens-before state removal in every
interleaving. -/
theorem relay_disconnect_loses_buffered_output_cex :
    (Relay.run (Relay.init (Relay.outputScript ["hello"]))
      [.relay, .disco, .relay, .relay, .relay]).auditLog = [] ∧
    (Relay.run (Relay.init (Relay.outputScript ["hello"]))
      [.relay, .disco, .relay, .relay, .relay]).sentToClient = ["hello"] ∧
    (Relay.run (Relay.init (Relay.outputScript ["hello"]))
      [.relay, .disco, .relay, .relay, .relay]).registered = false ∧
    (Relay.run (Relay.init (Relay.outputScript ["hello"]))
      [.relay, .disco, .relay, .relay, .relay]).pc = Relay.RelayPC.done := by
  decide

/-- Helper for C7: running the relay loop alone over a script of output
chunks accumulates exactly their concatenation into the output buffer,
forwards every non-empty chunk to the client, and writes nothing to the
audit sink yet. -/
theorem relay_loop_consumes_script (outs : List String) :
    ∀ st : Relay.SysState, st.registered = true → st.pc = .loop →
    st.ticks = Relay.outputScript outs →
    Relay.run st (List.replicate outs.length Relay.Task.relay) =
      { st with outputBuffer := st.outputBuffer ++ Relay.joinAll outs
                sentToClient := st.sentToClient ++ outs.filter (fun o => o ≠ "")
                ticks := [] } := by
  induction outs with
  | nil =>
    intro st hreg hpc hticks
    obtain ⟨reg, buf, audit, sent, ticks, pc, disco⟩ := st
    simp only at hticks
    simp [Relay.outputScript] at hticks
    subst hticks
    simp [Relay.run, Relay.joinAll]
  | cons o rest ih =>
    intro st hreg hpc hticks
    have hstep : Relay.step st Relay.Task.relay =
        { st with outputBuffer := st.outputBuffer ++ o
                  sentToClient := st.sentToClient ++ (if o = "" then [] else [o])
                  ticks := Relay.outputScript rest } := by
      simp only [Relay.step, Relay.relayStep, hpc, hreg, hticks, Relay.outputScript,
        List.map_cons]
      simp
    have hrun : Relay.run st (List.replicate (o :: rest).length Relay.Task.relay) =
        Relay.run (Relay.step st Relay.Task.relay)
          (List.replicate rest.length Relay.Task.relay) := by
      simp [List.length_cons, List.replicate_succ, Relay.run]
    rw [hrun, hstep, ih _ (by simp [hreg]) (by simp [hpc]) (by simp)]
    simp only [Relay.joinAll]
    by_cases ho : o = ""
    · subst ho
      simp [String.append_assoc]
    · simp [ho, String.append_assoc]

/-- C7 (amended): the flush-before-removal guarantee holds only when the
relay task itself completes before the disconnect event fires.  For every
sequence of output chunks, running the relay task uninterrupted flushes
the whole buffered output to the audit sink while the connection is still
registered (after `outs.length + 2` steps: loop, exit, final flush), and
only the subsequent cleanup step deregisters the connection.  When the
disconnect event removes the connection state first, the remaining
buffered output is discarded (see the counterexample). -/
theorem relay_flushes_before_removal_when_uninterrupted (outs : List String) :
    (Relay.run (Relay.init (Relay.outputScript outs))
      (List.replicate (outs.length + 2) Relay.Task.relay)).registered = true ∧
    (Relay.run (Relay.init (Relay.outputScript outs))
      (List.replicate (outs.length + 2) Relay.Task.relay)).auditLog =
      (if Relay.joinAll outs = "" then [] else [Relay.joinAll outs]) ∧
    (Relay.run (Relay.init (Relay.outputScript outs))
      (List.replicate (outs.length + 3) Relay.Task.relay)).registered = false ∧
    (Relay.run (Relay.init (Relay.outputScript outs))
      (List.replicate (outs.length + 3) Relay.Task.relay)).auditLog =
      (if Relay.joinAll outs = "" then [] else [Relay.joinAll outs]) ∧
    (Relay.run (Relay.init (Relay.outputScript outs))
      (List.replicate (outs.length + 3) Relay.Task.relay)).pc = Relay.RelayPC.done := by
  have hbase := relay_loop_consumes_script outs (Relay.init (Relay.outputScript outs))
    rfl rfl rfl
  have hra : ∀ (s : Relay.SysState) (a b : List Relay.Task),
      Relay.run s (a ++ b) = Relay.run (Relay.run s a) b := by
    intro s a b
    simp [Relay.run, List.foldl_append]
  have hsplit2 : List.replicate (outs.length + 2) Relay.Task.relay =
      List.replicate outs.length Relay.Task.relay ++ List.replicate 2 Relay.Task.relay :=
    List.replicate_add outs.length 2 Relay.Task.relay
  have hsplit3 : List.replicate (outs.length + 3) Relay.Task.relay =
      List.replicate outs.length Relay.Task.relay ++ List.replicate 3 Relay.Task.relay :=
    List.replicate_add outs.length 3 Relay.Task.relay
  rw [hsplit2, hsplit3, hra, hra, hbase]
  by_cases hj : Relay.joinAll outs = ""
  · simp [Relay.run, Relay.step, Relay.relayStep, Relay.init, hj,
      List.replicate_succ]
  · simp [Relay.run, Relay.step, Relay.relayStep, Relay.init, hj,
      List.replicate_succ]

/-- Helper: `dropWhile` keeps only elements of the original list. -/
theorem py_mem_of_mem_dropWhile {p : Char → Bool} {c : Char} :
    ∀ {l : List Char}, c ∈ l.dropWhile p → c ∈ l := by
  intro l h
  induction l with
  | nil => simp at h
  | cons a t ih =>
    by_cases ha : p a
    · rw [List.dropWhile_cons_of_pos ha] at h
      exact List.mem_cons_of_mem a (ih h)
    · rw [List.dropWhile_cons_of_neg ha] at h
      exact h

/-- Helper: an element on which the predicate fails survives `dropWhile`. -/
theorem py_mem_dropWhile_of_mem {p : Char → Bool} {c : Char} (hp : p c = false) :
    ∀ {l : List Char}, c ∈ l → c ∈ l.dropWhile p := by
  intro l h
  induction l with
  | nil => simp at h
  | cons a t ih =>
    by_cases ha : p a
    · rw [List.dropWhile_cons_of_pos ha]
      rcases List.mem_cons.mp h with rfl | hm
      · rw [ha] at hp
        cases hp
      · exact ih hm
    · rw [List.dropWhile_cons_of_neg ha]
      exact h

theorem py_head?_dropWhile {p : Char → Bool} :
    ∀ {l : List Char} {c : Char}, (l.dropWhile p).head? = some c → p c = false := by
  intro l
  induction l with
  | nil => intro c h; simp at h
  | cons a t ih =>
    intro c h
    by_cases ha : p a
    · rw [List.dropWhile_cons_of_pos ha] at h
      exact ih h
    · rw [List.dropWhile_cons_of_neg ha] at h
      simp at h
      subst h
      simpa using ha

/-- Helper: `dropWhile` is the identity when the head does not satisfy the predicate. -/
theorem py_dropWhile_eq_self {p : Char → Bool} :
    ∀ {l : List Char}, (∀ c, l.head? = some c → p c = false) → l.dropWhile p = l := by
  intro l h
  cases l with
  | nil => rfl
  | cons a t =>
    have ha := h a (by simp)
    rw [List.dropWhile_cons_of_neg (by simp [ha])]

theorem py_getLast?_dropWhile {p : Char → Bool} :
    ∀ {l : List Char}, l.dropWhile p ≠ [] → (l.dropWhile p).getLast? = l.getLast? := by
  intro l
  induction l with
  | nil => intro h; simp at h
  | cons a t ih =>
    intro h
    by_cases ha : p a
    · rw [List.dropWhile_cons_of_pos ha] at h ⊢
      cases t with
      | nil => simp at h
      | cons b t2 => rw [ih h, List.getLast?_cons_cons]
    · rw [List.dropWhile_cons_of_neg ha]

/-- Helper: characters of a stripped string come from the original. -/
theorem py_mem_of_mem_stripList {c : Char} {l : List Char}
    (h : c ∈ Py.stripList l) : c ∈ l := by
  unfold Py.stripList at h
  rw [List.mem_reverse] at h
  have h2 := py_mem_of_mem_dropWhile h
  rw [List.mem_reverse] at h2
  exact py_mem_of_mem_dropWhile h2

/-- Helper: a non-whitespace character of the original survives stripping. -/
theorem py_mem_stripList_of_mem {c : Char} {l : List Char}
    (hc : c ∈ l) (hs : Py.isSpace c = false) : c ∈ Py.stripList l := by
  unfold Py.stripList
  rw [List.mem_reverse]
  apply py_mem_dropWhile_of_mem hs
  rw [List.mem_reverse]
  exact py_mem_dropWhile_of_mem hs hc

/-- Helper: a string containing a non-whitespace character strips to a non-empty string. -/
theorem py_stripList_ne_nil_of_exists {c : Char} {l : List Char}
    (hc : c ∈ l) (hs : Py.isSpace c = false) : Py.stripList l ≠ [] := by
  intro he
  have := py_mem_stripList_of_mem hc hs
  rw [he] at this
  simp at this

/-- Helper: `dropWhile` never lengthens a list. -/
theorem py_length_dropWhile_le (p : Char → Bool) :
    ∀ l : List Char, (l.dropWhile p).length ≤ l.length := by
  intro l
  induction l with
  | nil => simp
  | cons a t ih =>
    by_cases ha : p a
    · rw [List.dropWhile_cons_of_pos ha]
      exact le_trans ih (by simp)
    · rw [List.dropWhile_cons_of_neg ha]

/-- Helper: stripping never lengthens a string. -/
theorem py_stripList_length_le (l : List Char) :
    (Py.stripList l).length ≤ l.length := by
  unfold Py.stripList
  rw [List.length_reverse]
  refine le_trans (py_length_dropWhile_le _ _) ?_
  rw [List.length_reverse]
  exact py_length_dropWhile_le _ _

/-- Helper: a non-empty stripped string contains a non-whitespace character. -/
theorem py_stripList_exists_not_space {l : List Char} (h : Py.stripList l ≠ []) :
    ∃ c, c ∈ Py.stripList l ∧ Py.isSpace c = false := by
  have hXne : l.dropWhile Py.isSpace ≠ [] := by
    intro he
    apply h
    unfold Py.stripList
    rw [he]
    rfl
  obtain ⟨c, t, hct⟩ := List.exists_cons_of_ne_nil hXne
  have hc : (l.dropWhile Py.isSpace).head? = some c := by rw [hct]; rfl
  have hcs : Py.isSpace c = false := py_head?_dropWhile hc
  have hcm : c ∈ l := py_mem_of_mem_dropWhile (by rw [hct]; exact List.mem_cons_self c t)
  exact ⟨c, py_mem_stripList_of_mem hcm hcs, hcs⟩

theorem py_stripList_head?_not_space {l : List Char} {c : Char}
    (h : (Py.stripList l).head? = some c) : Py.isSpace c = false := by
  unfold Py.stripList at h
  rw [List.head?_reverse] at h
  have hYne : (l.dropWhile Py.isSpace).reverse.dropWhile Py.isSpace ≠ [] := by
    intro he
    rw [he] at h
    simp at h
  rw [py_getLast?_dropWhile hYne, List.getLast?_reverse] at h
  exact py_head?_dropWhile h

theorem py_stripList_getLast?_not_space {l : List Char} {c : Char}
    (h : (Py.stripList l).getLast? = some c) : Py.isSpace c = false := by
  unfold Py.stripList at h
  rw [List.getLast?_reverse] at h
  exact py_head?_dropWhile h

/-- Helper: Python `str.strip()` is idempotent. -/
theorem py_stripList_idem (l : List Char) :
    Py.stripList (Py.stripList l) = Py.stripList l := by
  have h1 : (Py.stripList l).dropWhile Py.isSpace = Py.stripList l :=
    py_dropWhile_eq_self (fun c hc => py_stripList_head?_not_space hc)
  have h2 : (Py.stripList l).reverse.dropWhile Py.isSpace = (Py.stripList l).reverse := by
    apply py_dropWhile_eq_self
    intro c hc
    rw [List.head?_reverse] at hc
    exact py_stripList_getLast?_not_space hc
  show (((Py.stripList l).dropWhile Py.isSpace).reverse.dropWhile Py.isSpace).reverse =
    Py.stripList l
  rw [h1, h2, List.reverse_reverse]

/-- Helper: unfolding equation of `splitLines` on a cons cell. -/
theorem py_splitLines_cons (c : Char) (rest : List Char) :
    Audit.splitLines (c :: rest) =
      if c = '\n' then [] :: Audit.splitLines rest
      else (c :: (Audit.splitLines rest).headI) :: (Audit.splitLines rest).tail := rfl

/-- Helper: `str.split` never returns an empty list of lines. -/
theorem py_splitLines_ne_nil (cs : List Char) : Audit.splitLines cs ≠ [] := by
  cases cs with
  | nil => simp [Audit.splitLines]
  | cons c rest =>
    rw [py_splitLines_cons]
    by_cases hc : c = '\n' <;> simp [hc]

/-- Helper: unfolding equation of `joinLines` on a cons cell. -/
theorem py_joinLines_cons (a : List Char) (ls : List (List Char)) :
    Audit.joinLines (a :: ls) =
      if ls.isEmpty then a else a ++ '\n' :: Audit.joinLines ls := by
  cases ls <;> rfl

/-- Helper: characters of a split line come from the original string and are not newlines. -/
theorem py_mem_splitLines {c : Char} :
    ∀ {cs l : List Char}, l ∈ Audit.splitLines cs → c ∈ l → c ∈ cs ∧ c ≠ '\n' := by
  intro cs
  induction cs with
  | nil =>
    intro l hl hc
    simp [Audit.splitLines] at hl
    subst hl
    simp at hc
  | cons a rest ih =>
    intro l hl hc
    rw [py_splitLines_cons] at hl
    by_cases ha : a = '\n'
    · rw [if_pos ha] at hl
      rcases List.mem_cons.mp hl with rfl | hm
      · simp at hc
      · have h2 := ih hm hc
        exact ⟨List.mem_cons_of_mem _ h2.1, h2.2⟩
    · rw [if_neg ha] at hl
      rcases hsp : Audit.splitLines rest with _ | ⟨l0, ls⟩
      · exact absurd hsp (py_splitLines_ne_nil rest)
      · rw [hsp] at hl
        simp only [List.headI_cons, List.tail_cons] at hl
        rcases List.mem_cons.mp hl with rfl | hm
        · rcases List.mem_cons.mp hc with rfl | hm2
          · exact ⟨List.mem_cons_self _ _, ha⟩
          · have h2 := ih (l := l0) (by rw [hsp]; exact List.mem_cons_self _ _) hm2
            exact ⟨List.mem_cons_of_mem _ h2.1, h2.2⟩
        · have h2 := ih (l := l) (by rw [hsp]; exact List.mem_cons_of_mem _ hm) hc
          exact ⟨List.mem_cons_of_mem _ h2.1, h2.2⟩

/-- Helper: splitting a newline-free string yields that single line. -/
theorem py_splitLines_no_nl : ∀ {l : List Char}, (∀ c ∈ l, c ≠ '\n') →
    Audit.splitLines l = [l] := by
  intro l
  induction l with
  | nil => intro _; rfl
  | cons c rest ih =>
    intro h
    have hc : c ≠ '\n' := h c (List.mem_cons_self _ _)
    rw [py_splitLines_cons, if_neg hc, ih (fun d hd => h d (List.mem_cons_of_mem _ hd))]
    rfl

/-- Helper: splitting distributes over a leading newline-free line. -/
theorem py_splitLines_append_nl : ∀ {l : List Char} (cs : List Char),
    (∀ c ∈ l, c ≠ '\n') →
    Audit.splitLines (l ++ '\n' :: cs) = l :: Audit.splitLines cs := by
  intro l
  induction l with
  | nil =>
    intro cs _
    show Audit.splitLines ('\n' :: cs) = [] :: Audit.splitLines cs
    rw [py_splitLines_cons, if_pos rfl]
  | cons c rest ih =>
    intro cs h
    have hc : c ≠ '\n' := h c (List.mem_cons_self _ _)
    show Audit.splitLines (c :: (rest ++ '\n' :: cs)) = (c :: rest) :: Audit.splitLines cs
    rw [py_splitLines_cons, if_neg hc, ih cs (fun d hd => h d (List.mem_cons_of_mem _ hd))]
    rfl

/-- Helper: splitting the join of non-empty newline-free lines returns the lines. -/
theorem py_splitLines_joinLines : ∀ {ls : List (List Char)}, ls ≠ [] →
    (∀ l ∈ ls, ∀ c ∈ l, c ≠ '\n') →
    Audit.splitLines (Audit.joinLines ls) = ls := by
  intro ls
  induction ls with
  | nil => intro h _; cases h rfl
  | cons a ls2 ih =>
    intro _ h
    cases ls2 with
    | nil =>
      show Audit.splitLines (Audit.joinLines [a]) = [a]
      exact py_splitLines_no_nl (h a (List.mem_cons_self _ _))
    | cons b t =>
      rw [py_joinLines_cons, if_neg (by simp)]
      rw [py_splitLines_append_nl _ (h a (List.mem_cons_self _ _)),
        ih (by simp) (fun l hl => h l (List.mem_cons_of_mem _ hl))]

/-- Helper: joining the split of a string returns the string. -/
theorem py_joinLines_splitLines : ∀ cs : List Char,
    Audit.joinLines (Audit.splitLines cs) = cs := by
  intro cs
  induction cs with
  | nil => rfl
  | cons c rest ih =>
    rw [py_splitLines_cons]
    by_cases hc : c = '\n'
    · rw [if_pos hc, py_joinLines_cons]
      have hne := py_splitLines_ne_nil rest
      rw [if_neg (by simpa using hne)]
      rw [ih, hc]
      rfl
    · rw [if_neg hc]
      rcases hsp : Audit.splitLines rest with _ | ⟨l0, ls⟩
      · exact absurd hsp (py_splitLines_ne_nil rest)
      · simp only [List.headI_cons, List.tail_cons]
        rw [hsp] at ih
        cases ls with
        | nil =>
          rw [py_joinLines_cons] at ih ⊢
          simp at ih ⊢
          rw [ih]
        | cons m t =>
          rw [py_joinLines_cons] at ih ⊢
          simp at ih ⊢
          exact ih

/-- Helper: a character of a joined line is in the join. -/
theorem py_mem_joinLines_of_mem {c : Char} :
    ∀ {ls : List (List Char)} {l : List Char}, l ∈ ls → c ∈ l →
    c ∈ Audit.joinLines ls := by
  intro ls
  induction ls with
  | nil =>
    intro l hl _
    simp at hl
  | cons a t ih =>
    intro l hl hc
    rcases List.mem_cons.mp hl with rfl | hm
    · cases t with
      | nil => simpa [Audit.joinLines] using hc
      | cons b t2 =>
        rw [py_joinLines_cons, if_neg (by simp)]
        exact List.mem_append.mpr (Or.inl hc)
    · cases t with
      | nil => simp at hm
      | cons b t2 =>
        rw [py_joinLines_cons, if_neg (by simp)]
        exact List.mem_append.mpr (Or.inr (List.mem_cons_of_mem _ (ih hm hc)))

/-- Helper: every character of a join comes from some line or is the newline separator. -/
theorem py_mem_joinLines {c : Char} :
    ∀ {ls : List (List Char)}, c ∈ Audit.joinLines ls →
    (∃ l ∈ ls, c ∈ l) ∨ c = '\n' := by
  intro ls
  induction ls with
  | nil =>
    intro h
    simp [Audit.joinLines] at h
  | cons a t ih =>
    intro h
    cases t with
    | nil =>
      exact Or.inl ⟨a, List.mem_cons_self _ _, by simpa [Audit.joinLines] using h⟩
    | cons b t2 =>
      rw [py_joinLines_cons, if_neg (by simp)] at h
      rcases List.mem_append.mp h with h1 | h2
      · exact Or.inl ⟨a, List.mem_cons_self _ _, h1⟩
      · rcases List.mem_cons.mp h2 with rfl | h3
        · exact Or.inr rfl
        · rcases ih h3 with ⟨l, hl, hcl⟩ | hnl
          · exact Or.inl ⟨l, List.mem_cons_of_mem _ hl, hcl⟩
          · exact Or.inr hnl

/-- Helper: stripping every line and dropping the empty ones never lengthens the joined string. -/
theorem py_joinLines_filterStrip_length_le :
    ∀ ls : List (List Char),
    (Audit.joinLines ((ls.map Py.stripList).filter (fun l => !l.isEmpty))).length ≤
      (Audit.joinLines ls).length := by
  intro ls
  induction ls with
  | nil => simp [Audit.joinLines]
  | cons a t ih =>
    by_cases ha : (Py.stripList a).isEmpty
    · have hmap : ((a :: t).map Py.stripList).filter (fun l => !l.isEmpty) =
          (t.map Py.stripList).filter (fun l => !l.isEmpty) := by
        simp [ha]
      rw [hmap]
      refine le_trans ih ?_
      cases t with
      | nil => simp [Audit.joinLines]
      | cons b t2 =>
        rw [py_joinLines_cons (a := a), if_neg (by simp)]
        simp only [List.length_append, List.length_cons]
        omega
    · have hmap : ((a :: t).map Py.stripList).filter (fun l => !l.isEmpty) =
          Py.stripList a :: ((t.map Py.stripList).filter (fun l => !l.isEmpty)) := by
        simp [ha]
      rw [hmap]
      by_cases hf : (t.map Py.stripList).filter (fun l => !l.isEmpty) = []
      · rw [hf, py_joinLines_cons, if_pos (by simp)]
        refine le_trans (py_stripList_length_le a) ?_
        cases t with
        | nil => simp [Audit.joinLines]
        | cons b t2 =>
          rw [py_joinLines_cons (a := a), if_neg (by simp)]
          simp only [List.length_append, List.length_cons]
          omega
      · rw [py_joinLines_cons, if_neg (by simpa using hf)]
        cases t with
        | nil => simp at hf
        | cons b t2 =>
          rw [py_joinLines_cons (a := a), if_neg (by simp)]
          simp only [List.length_append, List.length_cons]
          have h1 := py_stripList_length_le a
          omega

/-- Helper: a regex removal pass is the identity when the matcher never fires. -/
theorem py_scanRemove_no_match {m : List Char → Option Nat} {P : Char → Prop}
    (hm : ∀ c rest, P c → m (c :: rest) = none) :
    ∀ (fuel : Nat) (cs : List Char), (∀ c ∈ cs, P c) →
    Audit.scanRemove m fuel cs = cs := by
  intro fuel
  induction fuel with
  | zero =>
    intro cs _
    rfl
  | succ f ih =>
    intro cs h
    cases cs with
    | nil => rfl
    | cons c rest =>
      show (match m (c :: rest) with
        | some n => Audit.scanRemove m f ((c :: rest).drop n)
        | none => c :: Audit.scanRemove m f rest) = c :: rest
      rw [hm c rest (h c (List.mem_cons_self _ _))]
      rw [ih rest (fun d hd => h d (List.mem_cons_of_mem _ hd))]

/-- Helper: the ANSI matcher needs a leading ESC. -/
theorem py_ansiMatchLen_none {c : Char} (hc : c ≠ '\x1b') (rest : List Char) :
    Audit.ansiMatchLen (c :: rest) = none := by
  show (if c ≠ '\x1b' then none else _) = none
  rw [if_pos hc]

/-- Helper: the ESC-paren matcher needs a leading ESC. -/
theorem py_escParenMatchLen_none {c : Char} (hc : c ≠ '\x1b') (rest : List Char) :
    Audit.escParenMatchLen (c :: rest) = none := by
  cases rest with
  | nil => rfl
  | cons p rest2 =>
    cases rest2 with
    | nil => rfl
    | cons d rest3 =>
      show (if c = '\x1b' ∧ p = '(' ∧ (d = 'A' ∨ d = 'B') then some 3 else none) = none
      rw [if_neg (by intro hh; exact hc hh.1)]

/-- Helper: the CSI-cursor matcher needs a leading ESC. -/
theorem py_csiCursorMatchLen_none {c : Char} (hc : c ≠ '\x1b') (rest : List Char) :
    Audit.csiCursorMatchLen (c :: rest) = none := by
  cases rest with
  | nil => rfl
  | cons b rest2 =>
    show (if c = '\x1b' ∧ b = '[' then _ else none) = none
    rw [if_neg (by intro hh; exact hc hh.1)]

/-- Helper: a printable-ASCII-or-newline character is none of the control characters the cleaning passes remove. -/
theorem py_tame_char_ne {c : Char}
    (h : Py.isAsciiPrintable c = true ∨ c = '\n') :
    c ≠ '\x1b' ∧ c ≠ '\x0e' ∧ c ≠ '\x0f' ∧ c ≠ '\x07' ∧ c ≠ '\r' := by
  rcases h with hp | hn
  · refine ⟨?_, ?_, ?_, ?_, ?_⟩ <;>
      (intro he; subst he; exact absurd hp (by decide))
  · subst hn
    refine ⟨by decide, by decide, by decide, by decide, by decide⟩

/-- Helper: the regex and control-character passes are the identity on ANSI-free, control-free input. -/
theorem py_stripControlPasses_eq_self {cs : List Char}
    (h : ∀ c ∈ cs, Py.isAsciiPrintable c = true ∨ c = '\n') :
    Audit.stripControlPasses cs = cs := by
  have hesc : ∀ c ∈ cs, c ≠ '\x1b' := fun c hc => (py_tame_char_ne (h c hc)).1
  simp only [Audit.stripControlPasses]
  rw [py_scanRemove_no_match (P := fun c => c ≠ '\x1b')
    (fun c rest hc => py_ansiMatchLen_none hc rest) _ _ hesc]
  rw [py_scanRemove_no_match (P := fun c => c ≠ '\x1b')
    (fun c rest hc => py_escParenMatchLen_none hc rest) _ _ hesc]
  rw [py_scanRemove_no_match (P := fun c => c ≠ '\x1b')
    (fun c rest hc => py_csiCursorMatchLen_none hc rest) _ _ hesc]
  have hf1 : List.filter (fun c => decide (c ≠ '\x0e') && decide (c ≠ '\x0f')) cs = cs :=
    List.filter_eq_self.mpr (fun c hc => by
      have h2 := py_tame_char_ne (h c hc)
      simp [h2.2.1, h2.2.2.1])
  rw [hf1]
  exact List.filter_eq_self.mpr (fun c hc => by
    have h2 := py_tame_char_ne (h c hc)
    simp [h2.2.2.2.1])

/-- Helper: characters with equal code points are equal. -/
theorem py_char_eq_of_toNat_eq {c d : Char} (h : c.toNat = d.toNat) : c = d :=
  Char.ext (UInt32.ext h)

/-- Helper: printable ASCII characters satisfy Python `str.isprintable`. -/
theorem py_asciiPrintable_isPrintable {c : Char}
    (h : Py.isAsciiPrintable c = true) : Py.isPrintable c = true := by
  have hb : 0x20 ≤ c.toNat ∧ c.toNat ≤ 0x7e := by
    simpa [Py.isAsciiPrintable] using h
  unfold Py.isPrintable
  rw [if_neg (by omega)]
  rw [if_neg (by omega)]
  rw [if_neg (by simp only [Bool.and_eq_true, decide_eq_true_eq, not_and]; omega)]
  rw [if_neg (by omega)]
  rw [if_neg (by simp only [Bool.or_eq_true, decide_eq_true_eq, not_or]; omega)]
  rw [if_neg ?hspace]
  case hspace =>
    intro hsp
    rw [Bool.and_eq_true] at hsp
    have hs := hsp.1
    have hne : c ≠ ' ' := by simpa using hsp.2
    have hne2 : ¬(c.toNat = 0x20) := fun he =>
      hne (py_char_eq_of_toNat_eq (by simpa using he))
    simp only [Py.isSpace, Bool.or_eq_true, Bool.and_eq_true, decide_eq_true_eq] at hs
    omega

/-- Helper: per-line cleaning is plain stripping on carriage-return-free lines. -/
theorem py_cleanLine_eq_strip {l : List Char} (h : ∀ c ∈ l, c ≠ '\r') :
    Audit.cleanLine l = Py.stripList l := by
  unfold Audit.cleanLine
  rw [List.filter_eq_self.mpr (fun c hc => by simp [h c hc])]

/-- Helper: for a printable-ASCII line, the keep condition reduces to non-emptiness of the stripped line. -/
theorem py_keepLine_stripList {l : List Char}
    (h : ∀ c ∈ l, Py.isAsciiPrintable c = true) :
    Audit.keepLine (Py.stripList l) = !(Py.stripList l).isEmpty := by
  by_cases he : Py.stripList l = []
  · rw [he]
    rfl
  · obtain ⟨c, hcm, hcs⟩ := py_stripList_exists_not_space he
    have hcp : Py.isAsciiPrintable c = true := h c (py_mem_of_mem_stripList hcm)
    have hb : 0x20 ≤ c.toNat := by
      have := (by simpa [Py.isAsciiPrintable] using hcp : 0x20 ≤ c.toNat ∧ c.toNat ≤ 0x7e)
      exact this.1
    have hall : Audit.isAllWsOrC0 (Py.stripList l) = false := by
      cases hv : Audit.isAllWsOrC0 (Py.stripList l) with
      | false => rfl
      | true =>
        exfalso
        have := List.all_eq_true.mp hv c hcm
        simp only [Bool.or_eq_true, decide_eq_true_eq] at this
        rcases this with h1 | h2
        · rw [hcs] at h1
          cases h1
        · omega
    unfold Audit.keepLine
    rw [hall]
    simp

/-- Helper: on clean input the per-line stage is exactly strip-then-drop-empties. -/
theorem py_processedLines_eq {cs : List Char}
    (h : ∀ c ∈ cs, Py.isAsciiPrintable c = true ∨ c = '\n') :
    Audit.processedLines cs =
      ((Audit.splitLines cs).map Py.stripList).filter (fun l => !l.isEmpty) := by
  have hline : ∀ l ∈ Audit.splitLines cs, ∀ c ∈ l, Py.isAsciiPrintable c = true := by
    intro l hl c hc
    have h2 := py_mem_splitLines hl hc
    rcases h c h2.1 with hp | hn
    · exact hp
    · exact absurd hn h2.2
  unfold Audit.processedLines
  have hmap : (Audit.splitLines cs).map Audit.cleanLine =
      (Audit.splitLines cs).map Py.stripList := by
    apply List.map_congr_left
    intro l hl
    apply py_cleanLine_eq_strip
    intro c hc he
    subst he
    exact absurd (hline l hl _ hc) (by decide)
  rw [hmap]
  apply List.filter_congr
  intro x hx
  rw [List.mem_map] at hx
  obtain ⟨l, hl, rfl⟩ := hx
  exact py_keepLine_stripList (hline l hl)

/-- Helper: normalization introduces no characters beyond the input and newlines. -/
theorem py_normalizeLines_chars {cs : List Char} {c : Char}
    (hc : c ∈ Audit.normalizeLines cs) : c ∈ cs ∨ c = '\n' := by
  unfold Audit.normalizeLines at hc
  rcases py_mem_joinLines hc with ⟨l, hl, hcl⟩ | hnl
  · rw [List.mem_filter] at hl
    obtain ⟨hl1, _⟩ := hl
    rw [List.mem_map] at hl1
    obtain ⟨l0, hl0, rfl⟩ := hl1
    exact Or.inl (py_mem_splitLines hl0 (py_mem_of_mem_stripList hcl)).1
  · exact Or.inr hnl

/-- Helper: normalization never lengthens the string. -/
theorem py_normalizeLines_length_le (cs : List Char) :
    (Audit.normalizeLines cs).length ≤ cs.length := by
  unfold Audit.normalizeLines
  refine le_trans (py_joinLines_filterStrip_length_le (Audit.splitLines cs)) ?_
  rw [py_joinLines_splitLines]

/-- Helper: a non-empty normalized string does not strip to empty. -/
theorem py_normalizeLines_strip_ne_nil {cs : List Char}
    (h : Audit.normalizeLines cs ≠ []) :
    Py.stripList (Audit.normalizeLines cs) ≠ [] := by
  rcases hKv : ((Audit.splitLines cs).map Py.stripList).filter (fun l => !l.isEmpty)
    with _ | ⟨l0, ls⟩
  · exfalso
    apply h
    unfold Audit.normalizeLines
    rw [hKv]
    rfl
  · have hl0 : l0 ∈ ((Audit.splitLines cs).map Py.stripList).filter
        (fun l => !l.isEmpty) := by
      rw [hKv]
      exact List.mem_cons_self _ _
    rw [List.mem_filter] at hl0
    obtain ⟨hl1, hne⟩ := hl0
    rw [List.mem_map] at hl1
    obtain ⟨lsrc, _, rfl⟩ := hl1
    obtain ⟨c, hcm, hcs⟩ := py_stripList_exists_not_space (by simpa using hne)
    have hcj : c ∈ Audit.normalizeLines cs := by
      unfold Audit.normalizeLines
      rw [hKv]
      exact py_mem_joinLines_of_mem (List.mem_cons_self _ _) hcm
    exact py_stripList_ne_nil_of_exists hcj hcs

/-- Helper: the printability filter is the identity on a normalized clean string. -/
theorem py_normalizeLines_filter_printable {cs : List Char}
    (h : ∀ c ∈ cs, Py.isAsciiPrintable c = true ∨ c = '\n') :
    (Audit.normalizeLines cs).filter Audit.printableOrNlTab =
      Audit.normalizeLines cs := by
  apply List.filter_eq_self.mpr
  intro c hc
  rcases py_normalizeLines_chars hc with hm | hn
  · rcases h c hm with hp | hn2
    · simp [Audit.printableOrNlTab, py_asciiPrintable_isPrintable hp]
    · subst hn2
      simp [Audit.printableOrNlTab]
  · subst hn
    simp [Audit.printableOrNlTab]

/-- Helper: on ANSI-free, control-free input within the truncation limit, `_clean_output` is exactly per-line strip-and-drop-empties normalization. -/
theorem py_cleanOutputList_eq_normalize {cs : List Char}
    (h : ∀ c ∈ cs, Py.isAsciiPrintable c = true ∨ c = '\n')
    (hlen : cs.length ≤ 5000) :
    Audit.cleanOutputList cs = Audit.normalizeLines cs := by
  by_cases hcs : cs.isEmpty
  · have he : cs = [] := by simpa using hcs
    subst he
    rfl
  · simp only [Audit.cleanOutputList]
    rw [if_neg (by simpa using hcs)]
    rw [py_stripControlPasses_eq_self h, py_processedLines_eq h]
    have hnorm : Audit.joinLines (((Audit.splitLines cs).map Py.stripList).filter
        (fun l => !l.isEmpty)) = Audit.normalizeLines cs := rfl
    rw [hnorm, py_normalizeLines_filter_printable h]
    by_cases hne : Audit.normalizeLines cs = []
    · rw [hne]
      rfl
    · rw [if_neg (by simpa using py_normalizeLines_strip_ne_nil hne)]
      rw [if_neg (by
        have := py_normalizeLines_length_le cs
        omega)]

/-- Helper: the normalization is idempotent. -/
theorem py_normalizeLines_idem (cs : List Char) :
    Audit.normalizeLines (Audit.normalizeLines cs) = Audit.normalizeLines cs := by
  rcases hKv : ((Audit.splitLines cs).map Py.stripList).filter (fun l => !l.isEmpty)
    with _ | ⟨l0, ls⟩
  · have he : Audit.normalizeLines cs = [] := by
      unfold Audit.normalizeLines
      rw [hKv]
      rfl
    rw [he]
    rfl
  · have hKmem : ∀ l ∈ ((Audit.splitLines cs).map Py.stripList).filter
        (fun l => !l.isEmpty),
        l ≠ [] ∧ Py.stripList l = l ∧ (∀ c ∈ l, c ≠ '\n') := by
      intro l hl
      rw [List.mem_filter] at hl
      obtain ⟨hl1, hne⟩ := hl
      rw [List.mem_map] at hl1
      obtain ⟨lsrc, hlsrc, rfl⟩ := hl1
      refine ⟨by simpa using hne, py_stripList_idem lsrc, ?_⟩
      intro c hc
      exact (py_mem_splitLines hlsrc (py_mem_of_mem_stripList hc)).2
    have hjoin : Audit.normalizeLines cs = Audit.joinLines (l0 :: ls) := by
      unfold Audit.normalizeLines
      rw [hKv]
    rw [hjoin]
    unfold Audit.normalizeLines
    rw [py_splitLines_joinLines (by simp)
      (by
        intro l hl
        rw [← hKv] at hl
        exact (hKmem l hl).2.2)]
    have hmap : (l0 :: ls).map Py.stripList = l0 :: ls := by
      have : ∀ l ∈ (l0 :: ls), Py.stripList l = l := by
        intro l hl
        rw [← hKv] at hl
        exact (hKmem l hl).2.1
      rw [List.map_congr_left this]
      exact List.map_id _
    rw [hmap]
    rw [List.filter_eq_self.mpr (by
      intro l hl
      rw [← hKv] at hl
      simpa using (hKmem l hl).1)]

/-- C9 counterexample: output cleaning is not idempotent.  For the
six-character input `"abc \x01"` (a trailing space guarded by a control
character), the first cleaning pass strips nothing — the line does not end
in whitespace until the printability filter later removes the `\x01` —
so it returns `"abc "`; cleaning that result strips the now-trailing
space, giving `"abc"`.  Hence `clean(clean(s)) ≠ clean(s)`, refuting the
claim's parenthetical universal idempotence. -/
theorem clean_output_not_idempotent_cex :
    Audit.cleanOutput (Audit.cleanOutput "abc \x01") ≠ Audit.cleanOutput "abc \x01" ∧
    Audit.cleanOutput "abc \x01" = "abc " ∧
    Audit.cleanOutput (Audit.cleanOutput "abc \x01") = "abc" := by
  refine ⟨?_, rfl, rfl⟩
  decide

/-- C9 (amended): for every output string with no ANSI escape sequences and
no control characters (every character printable ASCII or a newline) and
within the 5000-character truncation limit, cleaning returns the string
changed only by per-line whitespace stripping (leading as well as
trailing) and removal of lines that become empty; on such strings
cleaning is idempotent.  Unrestricted idempotence fails: a control
character can shield trailing whitespace from the strip until the
printability filter removes it (see the counterexample), and truncation
can break it for long strings. -/
theorem clean_output_idempotent_on_clean_bounded (s : String)
    (hchars : ∀ c ∈ s.data, Py.isAsciiPrintable c = true ∨ c = '\n')
    (hlen : s.data.length ≤ 5000) :
    Audit.cleanOutput s = ⟨Audit.normalizeLines s.data⟩ ∧
    Audit.cleanOutput (Audit.cleanOutput s) = Audit.cleanOutput s := by
  have h1 : Audit.cleanOutputList s.data = Audit.normalizeLines s.data :=
    py_cleanOutputList_eq_normalize hchars hlen
  have hchars2 : ∀ c ∈ Audit.normalizeLines s.data,
      Py.isAsciiPrintable c = true ∨ c = '\n' := by
    intro c hc
    rcases py_normalizeLines_chars hc with hm | hn
    · exact hchars c hm
    · exact Or.inr hn
  have hlen2 : (Audit.normalizeLines s.data).length ≤ 5000 :=
    le_trans (py_normalizeLines_length_le s.data) hlen
  constructor
  · show (⟨Audit.cleanOutputList s.data⟩ : String) = ⟨Audit.normalizeLines s.data⟩
    rw [h1]
  · show (⟨Audit.cleanOutputList (Audit.cleanOutput s).data⟩ : String) =
      Audit.cleanOutput s
    have hd : (Audit.cleanOutput s).data = Audit.cleanOutputList s.data := rfl
    rw [hd, h1]
    show (⟨Audit.cleanOutputList (Audit.normalizeLines s.data)⟩ : String) =
      Audit.cleanOutput s
    rw [py_cleanOutputList_eq_normalize hchars2 hlen2, py_normalizeLines_idem]
    show (⟨Audit.normalizeLines s.data⟩ : String) = ⟨Audit.cleanOutputList s.data⟩
    rw [h1]

/-- C9 witness: a concrete clean two-line string is normalized to
`"hi\nworld"` and cleaning it again changes nothing. -/
theorem clean_output_idempotent_witness :
    (∀ c ∈ ("  hi  \nworld\n\n" : String).data,
      Py.isAsciiPrintable c = true ∨ c = '\n') ∧
    Audit.cleanOutput "  hi  \nworld\n\n" = "hi\nworld" ∧
    Audit.cleanOutput (Audit.cleanOutput "  hi  \nworld\n\n") =
      Audit.cleanOutput "  hi  \nworld\n\n" := by
  refine ⟨by decide, ?_, ?_⟩
  · have h := clean_output_idempotent_on_clean_bounded "  hi  \nworld\n\n"
      (by decide) (by decide)
    rw [h.1]
    rfl
  · exact (clean_output_idempotent_on_clean_bounded "  hi  \nworld\n\n"
      (by decide) (by decide)).2
